import Mathlib

/-!
# Verification of the teeworlds log-to-elasticsearch ingestion pipeline

Shallow embedding of `src/log_to_es.py`.  Raw text is modelled as `List Char`;
Python's `str.split(sep, maxsplit)` together with tuple unpacking is modelled
by `splitOnce` (first occurrence) and `splitAll2` (split on every occurrence,
succeeding only when there are exactly two parts).  Python exceptions
(`IndexError` from list indexing, `ValueError` from tuple unpacking and from
`int`/`float` conversion) are modelled with `Except PyErr`.
-/

namespace LogToEs

/-- Convenience: the character list underlying a string literal. -/
def str (s : String) : List Char := s.data

/-- Python exceptions that the script can raise while processing one line. -/
inductive PyErr where
  /-- `IndexError`: indexing a split result that is too short. -/
  | indexError : PyErr
  /-- `ValueError`: tuple-unpacking a split of the wrong length, or a failed
  `int`/`float` conversion. -/
  | valueError : PyErr
deriving DecidableEq, Repr

/-- Model of `x.split(sep, 1)` followed by unpacking into two variables:
returns the text before and after the first occurrence of `sep`, or `none`
when `sep` does not occur (in which case Python raises `ValueError`). -/
def splitOnce (sep : List Char) : List Char → Option (List Char × List Char)
  | [] => if sep.isEmpty then some ([], []) else none
  | c :: rest =>
    if sep.isPrefixOf (c :: rest) then some ([], (c :: rest).drop sep.length)
    else
      match splitOnce sep rest with
      | none => none
      | some (p, q) => some (c :: p, q)

/-- Model of `a, b = x.split(sep)` (no maxsplit): Python splits on every
(leftmost, non-overlapping) occurrence and the unpacking succeeds exactly
when there are two parts, i.e. exactly one occurrence of `sep`. -/
def splitAll2 (sep s : List Char) : Option (List Char × List Char) :=
  match splitOnce sep s with
  | none => none
  | some (a, b) =>
    match splitOnce sep b with
    | none => some (a, b)
    | some _ => none

/-- Model of `x.split(sep ...)[0]`: the text before the first occurrence of
`sep`, or all of `x` when `sep` does not occur (index 0 always exists). -/
def pyBefore (sep s : List Char) : List Char :=
  match splitOnce sep s with
  | none => s
  | some (a, _) => a

/-- Model of `line.strip()` (both-ends whitespace removal). Python strips a
slightly larger whitespace set; the difference is irrelevant to the claims. -/
def pyStrip (s : List Char) : List Char :=
  ((s.dropWhile Char.isWhitespace).reverse.dropWhile Char.isWhitespace).reverse

/-- Hexadecimal digit test, as accepted by Python's `int(x, 16)`. -/
def isHexDigit (c : Char) : Bool :=
  c.isDigit || ('a' ≤ c && c ≤ 'f') || ('A' ≤ c && c ≤ 'F')

/-- Numeric value of one hexadecimal digit (junk value 0 off the domain). -/
def hexDigitVal (c : Char) : Nat :=
  if c.isDigit then c.toNat - '0'.toNat
  else if 'a' ≤ c && c ≤ 'f' then c.toNat - 'a'.toNat + 10
  else if 'A' ≤ c && c ≤ 'F' then c.toNat - 'A'.toNat + 10
  else 0

/-- Value of a string of hexadecimal digits, read in base 16. -/
def hexVal (s : List Char) : Nat :=
  s.foldl (fun a c => 16 * a + hexDigitVal c) 0

/-- Model of `int(x, 16)`: succeeds on a nonempty string of hex digits, else
raises `ValueError`.  (Python additionally tolerates surrounding whitespace,
a sign, underscores and an `0x` prefix; well-formed log lines use none of
these, and no claim depends on them.) -/
def parseHex (s : List Char) : Option Nat :=
  if s.isEmpty then none
  else if s.all isHexDigit then some (hexVal s) else none

/-- Model of `float(x)` for the `velocity` payload: optional sign, decimal
digits with an optional single point (`"1"`, `"1."`, `".5"`, `"0.001953"`).
Python's `float` also accepts exponents, `inf`/`nan` and surrounding
whitespace; no claim depends on the parsed velocity value. -/
def parseFloatCore (s : List Char) : Option Rat :=
  match splitOnce ['.'] s with
  | none =>
    if s ≠ [] && s.all Char.isDigit then
      some ((s.foldl (fun a c => 10 * a + (c.toNat - '0'.toNat)) 0 : Nat) : Rat)
    else none
  | some (i, f) =>
    if (i ++ f) ≠ [] && (i ++ f).all Char.isDigit &&
        (splitOnce ['.'] f).isNone then
      some ((((i.foldl (fun a c => 10 * a + (c.toNat - '0'.toNat)) 0 : Nat) : Rat)) +
        ((f.foldl (fun a c => 10 * a + (c.toNat - '0'.toNat)) 0 : Nat) : Rat) /
          ((10 : Rat) ^ f.length))
    else none

/-- Model of `float(x)` including an optional leading sign. -/
def parseFloat (s : List Char) : Option Rat :=
  match s with
  | '-' :: rest => (parseFloatCore rest).map (fun q => -q)
  | '+' :: rest => parseFloatCore rest
  | _ => parseFloatCore s

/-! ## Data model

The Python extractors return dictionaries; every dictionary carries the
constant `"_index": INDEX_NAME` and a `"_type"` tag equal to the event kind.
Here each event kind gets a record structure and `Event` is the tagged sum
(the `_type` tag is the constructor, `_index` is the constant `INDEX_NAME`).
-/

/-- `INDEX_NAME = 'logteeworlds'` (line 10). -/
def INDEX_NAME : List Char := str "logteeworlds"

/-- `LEAVE_GAME_KILL_ID = "-3"` (line 12): the weapon token recorded when a
player leaves the game or switches team. -/
def LEAVE_GAME_KILL_ID : List Char := str "-3"

/-- `WEAPON_ID_2_NAME` (lines 14-28), as an association list. -/
def WEAPON_ID_2_NAME : List (List Char × List Char) :=
  [ (str "5", str "ninja"),
    (str "4", str "laser_rifle"),
    (str "3", str "grenade"),
    (str "2", str "shotgun"),
    (str "1", str "normal_gun"),
    (str "0", str "hammer"),
    (str "-1", str "the_map_killed_you"),
    (str "-3", str "leave_team"),
    (str "-2", str "console_kill") ]

/-- `item_pickup_to_name` (lines 103-112), the dictionary local to
`extract_pickup_event`, as an association list. -/
def item_pickup_to_name : List (List Char × List Char) :=
  [ (str "0/0", str "health"),
    (str "1/0", str "armor"),
    (str "2/0", str "hammer"),
    (str "2/1", str "normal_gun"),
    (str "2/2", str "shotgun"),
    (str "2/3", str "grenade"),
    (str "2/4", str "laser_rifle"),
    (str "3/5", str "ninja") ]

/-- Model of Python `d.get(key, key)`: look the key up in an association
list, returning the key itself when absent. -/
def dictGetD (d : List (List Char × List Char)) (key : List Char) : List Char :=
  (d.lookup key).getD key

/-- Record built by `extract_kill_event` (lines 141-152). -/
structure KillRecord where
  timestamp : Nat
  killer_id : List Char
  killer_name : List Char
  victim_id : List Char
  victim_name : List Char
  weapon : List Char
  special : List Char
  is_suicide : Bool
deriving DecidableEq, Repr

/-- Record built by `extract_pickup_event` (lines 114-123). -/
structure PickupRecord where
  timestamp : Nat
  player_id : List Char
  player_name : List Char
  item : List Char
deriving DecidableEq, Repr

/-- Record built by `extract_team_join_event` (lines 58-65). -/
structure TeamJoinRecord where
  timestamp : Nat
  team_id : List Char
  player_id : List Char
  player_name : List Char
deriving DecidableEq, Repr

/-- Record built by `extract_leave_event` (lines 39-45). -/
structure LeaveRecord where
  timestamp : Nat
  player_id : List Char
  player_name : List Char
deriving DecidableEq, Repr

/-- Record built by `extract_velocity_event` (lines 78-85). -/
structure VelocityRecord where
  timestamp : Nat
  player_id : List Char
  player_name : List Char
  velocity : Rat
deriving DecidableEq, Repr

/-- The sum of the five event records; the constructor is the `"_type"` tag. -/
inductive Event where
  | kill (r : KillRecord)
  | pickup (r : PickupRecord)
  | team_join (r : TeamJoinRecord)
  | leave (r : LeaveRecord)
  | velocity (r : VelocityRecord)
deriving DecidableEq, Repr

/-- The `timestamp` field carried by any of the five event variants. -/
def Event.timestamp : Event → Nat
  | .kill r => r.timestamp
  | .pickup r => r.timestamp
  | .team_join r => r.timestamp
  | .leave r => r.timestamp
  | .velocity r => r.timestamp

/-! ## Event extractors (lines 30-152)

Each `a, b = x.split(sep, 1)` is a `splitOnce` (ValueError when `sep` is
absent), each `a, b = x.split(sep)` is a `splitAll2` (ValueError unless
`sep` occurs exactly once), and `log[len(prefix):]` is `List.drop`.
-/

/-- `extract_leave_event` (lines 30-45): payload `leave player='id:name'`. -/
def extract_leave_event (log : List Char) (timestamp : Nat) :
    Except PyErr LeaveRecord :=
  match splitOnce (str "'") (log.drop (str "leave player='").length) with
  | none => .error .valueError
  | some (player_part, _) =>
    match splitOnce (str ":") player_part with
    | none => .error .valueError
    | some (player_id, player_name) =>
      .ok { timestamp := timestamp * 1000
            player_id := player_id
            player_name := player_name }

/-- `extract_team_join_event` (lines 48-65):
payload `team_join player='id:name' team=T`. -/
def extract_team_join_event (log : List Char) (timestamp : Nat) :
    Except PyErr TeamJoinRecord :=
  match splitOnce (str "' team=") (log.drop (str "team_join player='").length) with
  | none => .error .valueError
  | some (player_part, team_part) =>
    match splitOnce (str ":") player_part with
    | none => .error .valueError
    | some (player_id, player_name) =>
      .ok { timestamp := timestamp * 1000
            team_id := team_part
            player_id := player_id
            player_name := player_name }

/-- `extract_velocity_event` (lines 67-85):
payload `velocity player='id:name' value=F`. -/
def extract_velocity_event (log : List Char) (timestamp : Nat) :
    Except PyErr VelocityRecord :=
  match splitOnce (str "' value=") (log.drop (str "velocity player='").length) with
  | none => .error .valueError
  | some (player_part, velocity_part) =>
    match splitOnce (str ":") player_part with
    | none => .error .valueError
    | some (player_id, player_name) =>
      match parseFloat velocity_part with
      | none => .error .valueError
      | some v =>
        .ok { timestamp := timestamp * 1000
              player_id := player_id
              player_name := player_name
              velocity := v }

/-- `extract_pickup_event` (lines 89-123):
payload `pickup player='id:name' item=I`. -/
def extract_pickup_event (log : List Char) (timestamp : Nat) :
    Except PyErr PickupRecord :=
  match splitOnce (str "' item=") (log.drop (str "pickup player='").length) with
  | none => .error .valueError
  | some (player_part, item_part) =>
    match splitOnce (str ":") player_part with
    | none => .error .valueError
    | some (player_id, player_name) =>
      .ok { timestamp := timestamp * 1000
            player_id := player_id
            player_name := player_name
            item := dictGetD item_pickup_to_name item_part }

/-- `extract_kill_event` (lines 125-152):
payload `kill player='K' victim='V' weapon=W special=S`.  Note that the
splits on `"' victim='"` use `maxsplit=1` while the splits on `"' weapon="`
and `" special="` are on every occurrence (`splitAll2`), exactly as in the
source. -/
def extract_kill_event (log : List Char) (timestamp : Nat) :
    Except PyErr KillRecord :=
  match splitOnce (str "' victim='") (log.drop (str "kill player='").length) with
  | none => .error .valueError
  | some (killer_part, other_part) =>
    match splitOnce (str ":") killer_part with
    | none => .error .valueError
    | some (killer_id, killer_name) =>
      match splitAll2 (str "' weapon=") other_part with
      | none => .error .valueError
      | some (victim_part, other_part2) =>
        match splitOnce (str ":") victim_part with
        | none => .error .valueError
        | some (victim_id, victim_name) =>
          match splitAll2 (str " special=") other_part2 with
          | none => .error .valueError
          | some (weapon_part, special_part) =>
            .ok { timestamp := timestamp * 1000
                  killer_id := killer_id
                  killer_name := killer_name
                  victim_id := victim_id
                  victim_name := victim_name
                  weapon := dictGetD WEAPON_ID_2_NAME weapon_part
                  special := special_part
                  is_suicide := killer_id == victim_id &&
                    !(weapon_part == LEAVE_GAME_KILL_ID) }

/-! ## Line decoder and ingestion loop (lines 197-266)

`main` reads lines until `sys.stdin.readline()` would return `None` — which
never happens: at end of input `readline()` returns the empty string, whose
timestamp extraction raises `IndexError`, terminating the loop by an
uncaught exception.  There is no `try`/`except` anywhere in the loop, so any
extraction error likewise terminates the whole loop.
-/

/-- `_extract_timestamp` (lines 257-263):
`int(line.split('[', 1)[1].split(']')[0], base=16)`.  The `[1]` raises
`IndexError` when the line has no `'['`; a bad hex string raises
`ValueError`. -/
def _extract_timestamp (line : List Char) : Except PyErr Nat :=
  match splitOnce (str "[") line with
  | none => .error .indexError
  | some (_, rest) =>
    match parseHex (pyBefore (str "]") rest) with
    | none => .error .valueError
    | some n => .ok n

/-- `_extract_log_type` (lines 252-255):
`line.split('[', 2)[2].split(']')[0]` — the text between the second pair of
brackets; `IndexError` when the line has fewer than two `'['`. -/
def _extract_log_type (line : List Char) : Except PyErr (List Char) :=
  match splitOnce (str "[") line with
  | none => .error .indexError
  | some (_, r1) =>
    match splitOnce (str "[") r1 with
    | none => .error .indexError
    | some (_, r2) => .ok (pyBefore (str "]") r2)

/-- `_extract_event_type` (lines 265-266): `log.split(' ', 1)[0]`. -/
def _extract_event_type (log : List Char) : List Char :=
  pyBefore (str " ") log

/-- `type_to_extractor` (lines 210-216), each extractor wrapped into the
`Event` sum. -/
def type_to_extractor (t : List Char) :
    Option (List Char → Nat → Except PyErr Event) :=
  if t = str "pickup" then
    some (fun log ts => (extract_pickup_event log ts).map .pickup)
  else if t = str "kill" then
    some (fun log ts => (extract_kill_event log ts).map .kill)
  else if t = str "team_join" then
    some (fun log ts => (extract_team_join_event log ts).map .team_join)
  else if t = str "leave" then
    some (fun log ts => (extract_leave_event log ts).map .leave)
  else if t = str "velocity" then
    some (fun log ts => (extract_velocity_event log ts).map .velocity)
  else none

/-- Diagnostics printed by the loop before `continue` (lines 229, 239-240). -/
inductive Diag where
  /-- `print("log_type not supported:", line)` for a non-`game` channel. -/
  | unsupportedChannel (line : List Char) : Diag
  /-- `print("no extractor for type", ...)` for an unknown event kind. -/
  | unknownEventKind (event_type log : List Char) : Diag
deriving DecidableEq, Repr

/-- What processing one stripped line yields before any buffering. -/
inductive LineOutcome where
  /-- The line was filtered or unrecognized; a diagnostic was printed. -/
  | skip (d : Diag) : LineOutcome
  /-- The line produced an event record. -/
  | event (ev : Event) : LineOutcome
deriving DecidableEq, Repr

/-- The per-line body of `main`'s loop (lines 219-243): strip, extract the
timestamp, extract the channel, filter non-`game` channels (with a
diagnostic), slice off the `": "` prefix, dispatch on the leading token
(diagnostic when unknown) and run the extractor.  Any failure is an
uncaught exception. -/
def processLineCore (rawLine : List Char) : Except PyErr LineOutcome :=
  let line := pyStrip rawLine
  match _extract_timestamp line with
  | .error e => .error e
  | .ok timestamp =>
    match _extract_log_type line with
    | .error e => .error e
    | .ok log_type =>
      if log_type ≠ str "game" then .ok (.skip (.unsupportedChannel line))
      else
        match splitOnce (str ": ") line with
        | none => .error .indexError
        | some (_, log) =>
          match type_to_extractor (_extract_event_type log) with
          | none => .ok (.skip (.unknownEventKind (_extract_event_type log) log))
          | some extractor =>
            match extractor log timestamp with
            | .error e => .error e
            | .ok ev => .ok (.event ev)

/-- The mutable state of `main`'s loop: the accumulating `events` buffer,
the batches already handed to `helpers.bulk`, and the printed diagnostics. -/
structure LoopState where
  buffer : List Event
  delivered : List (List Event)
  diags : List Diag
deriving DecidableEq, Repr

/-- The loop state at startup: `events = []` (line 208). -/
def initState : LoopState := { buffer := [], delivered := [], diags := [] }

/-- One full loop iteration on a successfully read line (lines 219-249):
run the per-line body, then append any produced event to the buffer and,
when `len(events) > 5`, flush the six buffered records with `helpers.bulk`
and reset the buffer to empty. -/
def processLine (st : LoopState) (rawLine : List Char) :
    Except PyErr LoopState :=
  match processLineCore rawLine with
  | .error e => .error e
  | .ok (.skip d) => .ok { st with diags := st.diags ++ [d] }
  | .ok (.event ev) =>
    let events := st.buffer ++ [ev]
    if 5 < events.length then
      .ok { st with buffer := [], delivered := st.delivered ++ [events] }
    else
      .ok { st with buffer := events }

/-- Run the loop over the available input lines.  An uncaught exception
stops the loop immediately; the state reached so far and the exception are
returned, and the remaining lines are never read. -/
def runLines (st : LoopState) : List (List Char) → LoopState × Option PyErr
  | [] => (st, none)
  | l :: ls =>
    match processLine st l with
    | .error e => (st, some e)
    | .ok st' => runLines st' ls

/-- The whole of `main`'s loop on a finite input stream: after the last real
line, `sys.stdin.readline()` returns the empty string (never `None`, so the
`break` is unreachable), and processing the empty string raises
`IndexError`, which terminates the loop. -/
def runMain (lines : List (List Char)) : LoopState × Option PyErr :=
  match runLines initState lines with
  | (st, some e) => (st, some e)
  | (st, none) =>
    match processLine st [] with
    | .error e => (st, some e)
    | .ok st' => (st', none)

/-- The sequence of event records successfully extracted from the input
lines, in input order, up to the first line whose processing raises (the
loop dies there, so later lines contribute nothing). -/
def producedEvents : List (List Char) → List Event
  | [] => []
  | l :: ls =>
    match processLineCore l with
    | .error _ => []
    | .ok (.skip _) => producedEvents ls
    | .ok (.event ev) => ev :: producedEvents ls

/-! ## Grammar payload builders (spec §4.2)

A payload "matching the grammar" is one assembled from its field components
with the literal delimiters, in order.  Identifiers are opaque small
integers rendered as text (spec §3), hence digit strings; the weapon and
special fields are raw numeric tokens (digits with an optional minus). -/

/-- Characters allowed in raw numeric tokens such as `-3` or `0`. -/
def isTokenChar (c : Char) : Bool := c.isDigit || c == '-'

/-- `kill player='kid:kname' victim='vid:vname' weapon=w special=s`. -/
def mkKillPayload (kid kname vid vname w s : List Char) : List Char :=
  str "kill player='" ++ (kid ++ (str ":" ++ (kname ++ (str "' victim='" ++
    (vid ++ (str ":" ++ (vname ++ (str "' weapon=" ++
      (w ++ (str " special=" ++ s))))))))))

/-- `pickup player='pid:pname' item=item`. -/
def mkPickupPayload (pid pname item : List Char) : List Char :=
  str "pickup player='" ++ (pid ++ (str ":" ++ (pname ++ (str "' item=" ++ item))))

/-- `team_join player='pid:pname' team=team`. -/
def mkTeamJoinPayload (pid pname team : List Char) : List Char :=
  str "team_join player='" ++ (pid ++ (str ":" ++ (pname ++ (str "' team=" ++ team))))

/-- `leave player='pid:pname'`. -/
def mkLeavePayload (pid pname : List Char) : List Char :=
  str "leave player='" ++ (pid ++ (str ":" ++ (pname ++ str "'")))

/-- `velocity player='pid:pname' value=v`. -/
def mkVelocityPayload (pid pname v : List Char) : List Char :=
  str "velocity player='" ++ (pid ++ (str ":" ++ (pname ++ (str "' value=" ++ v))))

/-- No occurrence of `sep` starts inside `m` when `m` is followed by `r`. -/
def NoOccPre (sep m r : List Char) : Prop :=
  ∀ j < m.length, ¬ sep <+: (m.drop j ++ r)

/-! ## Concrete data used by witnesses and counterexamples -/

/-- A kill line whose payload is missing every delimiter after the kind. -/
def badKillLine : List Char := str "[1][game]: kill player=xyz"

/-- A well-formed leave line. -/
def goodLeaveLine : List Char := str "[1][game]: leave player='0:a'"

/-- The event record produced by `goodLeaveLine`. -/
def c3Ev : Event :=
  .leave { timestamp := 1000, player_id := str "0", player_name := str "a" }

/-- A loop state holding five buffered events. -/
def c3Before : LoopState :=
  { buffer := [c3Ev, c3Ev, c3Ev, c3Ev, c3Ev], delivered := [], diags := [] }

/-- The leave event of the spec timestamp example. -/
def c6Ev : Event :=
  .leave { timestamp := 1310724660000, player_id := str "0", player_name := str "a" }

/-- The loop state after the sixth event triggers the flush. -/
def c3After : LoopState :=
  { buffer := [], delivered := [[c3Ev, c3Ev, c3Ev, c3Ev, c3Ev, c3Ev]],
    diags := [] }

instance {ε α : Type} [DecidableEq ε] [DecidableEq α] : DecidableEq (Except ε α)
  | .ok a, .ok b =>
    if h : a = b then .isTrue (by rw [h])
    else .isFalse (by intro hh; cases hh; exact h rfl)
  | .ok _, .error _ => .isFalse (by intro hh; cases hh)
  | .error _, .ok _ => .isFalse (by intro hh; cases hh)
  | .error e, .error f =>
    if h : e = f then .isTrue (by rw [h])
    else .isFalse (by intro hh; cases hh; exact h rfl)

/-! ## Properties of `splitOnce`

`splitOnce sep s = some (p, q)` holds exactly when `sep` occurs in `s`, and
then `p` is the text before the first occurrence and `q` the text after it.
-/

/-- A successful `splitOnce` decomposes its input around the separator. -/
theorem splitOnce_some_decomp {sep : List Char} :
    ∀ {s p q : List Char}, splitOnce sep s = some (p, q) → s = p ++ sep ++ q := by
  intro s
  induction s with
  | nil =>
    intro p q h
    simp only [splitOnce] at h
    split at h
    · rename_i hsep
      simp only [Option.some.injEq, Prod.mk.injEq] at h
      obtain ⟨rfl, rfl⟩ := h
      simp only [List.isEmpty_iff] at hsep
      simp [hsep]
    · cases h
  | cons c rest ih =>
    intro p q h
    simp only [splitOnce] at h
    split at h
    · rename_i hpre
      simp only [Option.some.injEq, Prod.mk.injEq] at h
      obtain ⟨rfl, rfl⟩ := h
      rw [ List.isPrefixOf_iff_prefix] at hpre
      have htake := List.prefix_iff_eq_take.mp hpre
      conv_lhs => rw [← List.take_append_drop sep.length (c :: rest)]
      rw [← htake]
      simp
    · rename_i hpre
      cases hrec : splitOnce sep rest with
      | none => rw [hrec] at h; cases h
      | some pq =>
        obtain ⟨p', q'⟩ := pq
        rw [hrec] at h
        simp only [Option.some.injEq, Prod.mk.injEq] at h
        obtain ⟨rfl, rfl⟩ := h
        have := ih hrec
        simp [this]

/-- A successful `splitOnce` splits at the FIRST occurrence: no occurrence
of the separator starts strictly before `p.length`. -/
theorem splitOnce_some_min {sep : List Char} :
    ∀ {s p q : List Char}, splitOnce sep s = some (p, q) →
      ∀ j < p.length, ¬ sep <+: s.drop j := by
  intro s
  induction s with
  | nil =>
    intro p q h
    simp only [splitOnce] at h
    split at h
    · simp only [Option.some.injEq, Prod.mk.injEq] at h
      obtain ⟨rfl, rfl⟩ := h
      intro j hj
      simp at hj
    · cases h
  | cons c rest ih =>
    intro p q h
    simp only [splitOnce] at h
    split at h
    · simp only [Option.some.injEq, Prod.mk.injEq] at h
      obtain ⟨rfl, rfl⟩ := h
      intro j hj
      simp at hj
    · rename_i hpre
      cases hrec : splitOnce sep rest with
      | none => rw [hrec] at h; cases h
      | some pq =>
        obtain ⟨p', q'⟩ := pq
        rw [hrec] at h
        simp only [Option.some.injEq, Prod.mk.injEq] at h
        obtain ⟨rfl, rfl⟩ := h
        intro j hj
        cases j with
        | zero =>
          intro hcon
          rw [← List.isPrefixOf_iff_prefix] at hcon
          simp only [List.drop_zero] at hcon
          exact hpre hcon
        | succ j' =>
          simp only [List.length_cons, Nat.succ_lt_succ_iff] at hj
          simpa using ih hrec j' hj

/-- `splitOnce` succeeds whenever the separator occurs. -/
theorem splitOnce_isSome_decomp {sep : List Char} :
    ∀ (a b : List Char), (splitOnce sep (a ++ sep ++ b)).isSome := by
  intro a
  induction a with
  | nil =>
    intro b
    cases hsep : sep with
    | nil =>
      cases b with
      | nil => simp [splitOnce]
      | cons c rest => simp [splitOnce]
    | cons c0 tl =>
      have hp : (c0 :: tl).isPrefixOf ((c0 :: tl) ++ b) := by
        rw [ List.isPrefixOf_iff_prefix]
        exact List.prefix_append _ _
      simp only [List.nil_append, List.cons_append]
      rw [show (c0 :: (tl ++ b)) = (c0 :: tl) ++ b by simp]
      cases hb : (c0 :: tl) ++ b with
      | nil => simp at hb
      | cons d rest =>
        simp only [splitOnce]
        rw [← hb, hp]
        simp
  | cons c a' ih =>
    intro b
    simp only [List.cons_append]
    simp only [splitOnce]
    split
    · simp
    · cases hrec : splitOnce sep (a' ++ sep ++ b) with
      | none =>
        have := ih b
        rw [hrec] at this
        simp at this
      | some pq => simp [hrec]

/-- The first occurrence starts no later than any other occurrence. -/
theorem splitOnce_min_le {sep s p q a b : List Char}
    (h : splitOnce sep s = some (p, q)) (hdec : s = a ++ sep ++ b) :
    p.length ≤ a.length := by
  by_contra hlt
  push_neg at hlt
  apply splitOnce_some_min h a.length hlt
  subst hdec
  rw [List.append_assoc, List.drop_left]
  exact List.prefix_append sep b

/-- The `q` of a successful split is a drop of the input. -/
theorem splitOnce_some_drop {sep s p q : List Char}
    (h : splitOnce sep s = some (p, q)) :
    q = s.drop (p.length + sep.length) := by
  have hd := splitOnce_some_decomp h
  subst hd
  rw [show p.length + sep.length = (p ++ sep).length by simp]
  rw [List.drop_left]

/-- A prefix that fits inside the first summand of an append is a prefix of
that summand. -/
theorem prefix_of_append_of_length_le {p a r : List Char}
    (h : p <+: a ++ r) (hlen : p.length ≤ a.length) : p <+: a := by
  have htake := List.prefix_iff_eq_take.mp h
  rw [List.take_append_eq_append_take, show p.length - a.length = 0 by omega,
    List.take_zero, List.append_nil] at htake
  rw [htake]
  exact List.take_prefix _ _

/-- `NoOccPre` composes over appends. -/
theorem NoOccPre.append {sep a b r : List Char}
    (ha : NoOccPre sep a (b ++ r)) (hb : NoOccPre sep b r) :
    NoOccPre sep (a ++ b) r := by
  intro j hj
  rw [List.drop_append_eq_append_drop]
  by_cases hja : j < a.length
  · rw [Nat.sub_eq_zero_of_le (by omega), List.drop_zero, List.append_assoc]
    exact ha j hja
  · push_neg at hja
    rw [List.drop_eq_nil_of_le (by omega), List.nil_append]
    exact hb (j - a.length) (by simp at hj; omega)

/-- A region whose characters all differ from the separator's first
character contains no occurrence start. -/
theorem NoOccPre.of_headfree {c0 : Char} {tl m r : List Char}
    (hm : ∀ c ∈ m, c ≠ c0) : NoOccPre (c0 :: tl) m r := by
  intro j hj hcon
  cases hd : m.drop j with
  | nil =>
    have := List.length_drop j m
    rw [hd] at this
    simp at this
    omega
  | cons c tail =>
    rw [hd, List.cons_append, List.cons_prefix_cons] at hcon
    have hc : c ∈ m := List.mem_of_mem_drop (by rw [hd]; exact List.mem_cons_self c tail)
    exact hm c hc hcon.1.symm

/-- A region that contains no occurrence of `sep` as an infix, and whose
continuation `r` extends no partial occurrence (no nonempty proper prefix
of `sep` ending at the region boundary continues into `r`), contains no
occurrence start. -/
theorem NoOccPre.of_infix_free {sep m r : List Char}
    (hinf : ¬ sep <:+: m)
    (hstr : ∀ k, 0 < k → k < sep.length → ¬ (sep.drop k) <+: r) :
    NoOccPre sep m r := by
  intro j hj hcon
  have hxne : m.drop j ≠ [] := by
    intro hnil
    have := List.length_drop j m
    rw [hnil] at this
    simp at this
    omega
  by_cases hlen : sep.length ≤ (m.drop j).length
  · have hpx : sep <+: m.drop j := prefix_of_append_of_length_le hcon hlen
    exact hinf (hpx.isInfix.trans (List.drop_suffix j m).isInfix)
  · push_neg at hlen
    have h1 : m.drop j <+: m.drop j ++ r := List.prefix_append _ _
    have hxp : m.drop j <+: sep := by
      rcases List.prefix_or_prefix_of_prefix hcon h1 with hc | hc
      · exact absurd hc.length_le (by omega)
      · exact hc
    have hsepeq : sep = m.drop j ++ sep.drop (m.drop j).length := by
      have := List.prefix_iff_eq_take.mp hxp
      conv_lhs => rw [← List.take_append_drop (m.drop j).length sep]
      rw [← this]
    rw [hsepeq] at hcon
    have hdropped : sep.drop (m.drop j).length <+: r :=
      (List.prefix_append_right_inj (m.drop j)).mp hcon
    exact hstr (m.drop j).length (by cases hx : m.drop j with
        | nil => exact absurd hx hxne
        | cons _ _ => simp [hx]) hlen hdropped

/-- `NoOccPre` is stable under dropping a prefix of the region. -/
theorem NoOccPre.drop {sep m r : List Char} (h : NoOccPre sep m r) (d : Nat) :
    NoOccPre sep (m.drop d) r := by
  intro j hj
  rw [List.drop_drop]
  exact h (d + j) (by simp at hj ⊢; omega)

/-- First-occurrence characterization: when no occurrence of `sep` starts
inside `m`, splitting `m ++ sep ++ t` yields exactly `(m, t)`. -/
theorem splitOnce_first {sep : List Char} :
    ∀ {m t : List Char}, NoOccPre sep m (sep ++ t) →
      splitOnce sep (m ++ sep ++ t) = some (m, t) := by
  intro m
  induction m with
  | nil =>
    intro t _
    cases hsep : sep with
    | nil =>
      cases t with
      | nil => simp [splitOnce]
      | cons c rest => simp [splitOnce]
    | cons c0 tl =>
      simp only [List.nil_append, List.cons_append]
      simp only [splitOnce]
      rw [show (c0 :: (tl ++ t)) = (c0 :: tl) ++ t by simp]
      rw [show ((c0 :: tl).isPrefixOf ((c0 :: tl) ++ t)) = true by
        rw [ List.isPrefixOf_iff_prefix]; exact List.prefix_append _ _]
      simp only [if_true]
      rw [List.drop_left]
  | cons c m' ih =>
    intro t hno
    have h0 : ¬ sep <+: (c :: m') ++ (sep ++ t) := by
      have := hno 0 (by simp)
      simpa using this
    have hno' : NoOccPre sep m' (sep ++ t) := by
      intro j hj
      have := hno (j + 1) (by simp; omega)
      simpa using this
    simp only [List.cons_append]
    simp only [splitOnce]
    rw [show (sep.isPrefixOf (c :: (m' ++ sep ++ t))) = false by
      rw [Bool.eq_false_iff]
      intro hcon
      rw [ List.isPrefixOf_iff_prefix] at hcon
      apply h0
      simpa [List.append_assoc] using hcon]
    simp only [Bool.false_eq_true, if_false]
    rw [ih hno']

/-- `splitOnce_first` with the separator passed explicitly. -/
theorem splitOnce_first_sep (sep : List Char) {m t : List Char}
    (hno : NoOccPre sep m (sep ++ t)) :
    splitOnce sep (m ++ sep ++ t) = some (m, t) :=
  splitOnce_first hno

/-- If no character of `s` equals the separator's first character then the
separator does not occur at all. -/
theorem splitOnce_none_headfree {c0 : Char} {tl : List Char} :
    ∀ {s : List Char}, (∀ c ∈ s, c ≠ c0) → splitOnce (c0 :: tl) s = none := by
  intro s
  induction s with
  | nil => intro _; simp [splitOnce]
  | cons c rest ih =>
    intro hs
    simp only [splitOnce]
    rw [show ((c0 :: tl).isPrefixOf (c :: rest)) = false by
      rw [Bool.eq_false_iff]
      intro hcon
      rw [ List.isPrefixOf_iff_prefix, List.cons_prefix_cons] at hcon
      exact hs c (List.mem_cons_self c rest) hcon.1.symm]
    simp only [Bool.false_eq_true, if_false]
    rw [ih (fun c hc => hs c (List.mem_cons_of_mem _ hc))]

/-- If a second, disjoint occurrence of the separator follows the one that
`splitOnce` found, the remainder `q` still contains an occurrence. -/
theorem splitOnce_second_isSome {sep s p q a b c : List Char}
    (h : splitOnce sep s = some (p, q))
    (hdec : s = a ++ sep ++ b ++ sep ++ c) :
    (splitOnce sep q).isSome := by
  have hdec' : s = a ++ sep ++ (b ++ sep ++ c) := by
    rw [hdec]; simp [List.append_assoc]
  have hple : p.length ≤ a.length := splitOnce_min_le h hdec'
  have hq := splitOnce_some_drop h
  have hz : q.drop (a.length + sep.length + b.length - (p.length + sep.length)) =
      sep ++ c := by
    rw [hq, List.drop_drop]
    rw [show p.length + sep.length +
        (a.length + sep.length + b.length - (p.length + sep.length)) =
        a.length + sep.length + b.length by omega]
    rw [hdec]
    rw [show a ++ sep ++ b ++ sep ++ c = (a ++ sep ++ b) ++ (sep ++ c) by
      simp [List.append_assoc]]
    rw [show a.length + sep.length + b.length = (a ++ sep ++ b).length by
      simp; omega]
    rw [List.drop_left]
  have hqdec : q = q.take (a.length + sep.length + b.length -
      (p.length + sep.length)) ++ sep ++ c := by
    conv_lhs => rw [← List.take_append_drop
      (a.length + sep.length + b.length - (p.length + sep.length)) q]
    rw [hz, List.append_assoc]
  rw [hqdec]
  exact splitOnce_isSome_decomp _ _

/-! ## Character-class helpers -/

/-- `NoOccPre.of_headfree` phrased via `head?`, convenient for concrete
separators. -/
theorem NoOccPre.of_headfree_head {sep : List Char} {c0 : Char} {m r : List Char}
    (hsep : sep.head? = some c0) (hm : ∀ c ∈ m, c ≠ c0) : NoOccPre sep m r := by
  cases sep with
  | nil => simp at hsep
  | cons d tl =>
    simp only [List.head?_cons, Option.some.injEq] at hsep
    subst hsep
    exact .of_headfree hm

/-- `splitOnce_none_headfree` phrased via `head?`. -/
theorem splitOnce_none_head {sep : List Char} {c0 : Char} {s : List Char}
    (hsep : sep.head? = some c0) (hm : ∀ c ∈ s, c ≠ c0) :
    splitOnce sep s = none := by
  cases sep with
  | nil => simp at hsep
  | cons d tl =>
    simp only [List.head?_cons, Option.some.injEq] at hsep
    subst hsep
    exact splitOnce_none_headfree hm

/-- Characters on which a boolean predicate disagrees are distinct. -/
theorem ne_of_pred_true_false {p : Char → Bool} {c d : Char}
    (hc : p c = true) (hd : p d = false) : c ≠ d := by
  intro h
  rw [h, hd] at hc
  cases hc

/-- Pointwise properties combine over appends. -/
theorem forall_mem_append {P : Char → Prop} {m1 m2 : List Char}
    (h1 : ∀ c ∈ m1, P c) (h2 : ∀ c ∈ m2, P c) : ∀ c ∈ m1 ++ m2, P c := by
  intro c hc
  rcases List.mem_append.mp hc with h | h
  exacts [h1 c h, h2 c h]

/-- Digit strings avoid any non-digit character. -/
theorem digits_ne {m : List Char} (h : ∀ c ∈ m, c.isDigit = true) {d : Char}
    (hd : d.isDigit = false) : ∀ c ∈ m, c ≠ d :=
  fun c hc => ne_of_pred_true_false (h c hc) hd

/-- Numeric-token strings avoid any non-token character. -/
theorem tokens_ne {m : List Char} (h : ∀ c ∈ m, isTokenChar c = true) {d : Char}
    (hd : isTokenChar d = false) : ∀ c ∈ m, c ≠ d :=
  fun c hc => ne_of_pred_true_false (h c hc) hd

/-! ## Exact recovery of grammar payloads by the extractors

For payloads whose identifier fields are digit strings, whose name fields
contain no apostrophe, and whose token fields are numeric tokens, every
split lands exactly on its grammar delimiter and the extractor reproduces
the components verbatim. -/

/-- `extract_leave_event` recovers the components of a clean leave payload. -/
theorem extract_leave_event_clean {pid pname : List Char} (ts : Nat)
    (hpid : ∀ c ∈ pid, c.isDigit = true)
    (hname : ∀ c ∈ pname, c ≠ '\'') :
    extract_leave_event (mkLeavePayload pid pname) ts =
      .ok { timestamp := ts * 1000, player_id := pid, player_name := pname } := by
  have hall : ∀ c ∈ pid ++ (str ":" ++ pname), c ≠ '\'' :=
    forall_mem_append (digits_ne hpid (by decide))
      (forall_mem_append (by decide) hname)
  have h1 : splitOnce (str "'") ((pid ++ (str ":" ++ pname)) ++ str "'" ++ []) =
      some (pid ++ (str ":" ++ pname), []) :=
    splitOnce_first (NoOccPre.of_headfree_head rfl hall)
  have h2 : splitOnce (str ":") (pid ++ (str ":" ++ pname)) = some (pid, pname) := by
    have := splitOnce_first_sep (str ":") (m := pid) (t := pname)
      (NoOccPre.of_headfree_head rfl (digits_ne hpid (by decide)))
    simpa [List.append_assoc] using this
  unfold extract_leave_event mkLeavePayload
  rw [List.drop_left]
  rw [show pid ++ (str ":" ++ (pname ++ str "'")) =
    (pid ++ (str ":" ++ pname)) ++ str "'" ++ [] by simp [List.append_assoc]]
  rw [h1]
  simp [h2]

/-- `extract_team_join_event` recovers the components of a clean team_join
payload; the team field is passed through verbatim with no constraint. -/
theorem extract_team_join_event_clean {pid pname team : List Char} (ts : Nat)
    (hpid : ∀ c ∈ pid, c.isDigit = true)
    (hname : ∀ c ∈ pname, c ≠ '\'') :
    extract_team_join_event (mkTeamJoinPayload pid pname team) ts =
      .ok { timestamp := ts * 1000, team_id := team,
            player_id := pid, player_name := pname } := by
  have hall : ∀ c ∈ pid ++ (str ":" ++ pname), c ≠ '\'' :=
    forall_mem_append (digits_ne hpid (by decide))
      (forall_mem_append (by decide) hname)
  have h1 : splitOnce (str "' team=")
      (pid ++ (str ":" ++ (pname ++ (str "' team=" ++ team)))) =
      some (pid ++ (str ":" ++ pname), team) := by
    have := splitOnce_first_sep (str "' team=")
      (m := pid ++ (str ":" ++ pname)) (t := team)
      (NoOccPre.of_headfree_head rfl hall)
    simpa [List.append_assoc] using this
  have h2 : splitOnce (str ":") (pid ++ (str ":" ++ pname)) = some (pid, pname) := by
    have := splitOnce_first_sep (str ":") (m := pid) (t := pname)
      (NoOccPre.of_headfree_head rfl (digits_ne hpid (by decide)))
    simpa [List.append_assoc] using this
  unfold extract_team_join_event mkTeamJoinPayload
  rw [List.drop_left]
  rw [h1]
  simp [h2]

/-- `extract_velocity_event` recovers the components of a clean velocity
payload whose value field parses as a float. -/
theorem extract_velocity_event_clean {pid pname v : List Char} {q : Rat} (ts : Nat)
    (hpid : ∀ c ∈ pid, c.isDigit = true)
    (hname : ∀ c ∈ pname, c ≠ '\'')
    (hv : parseFloat v = some q) :
    extract_velocity_event (mkVelocityPayload pid pname v) ts =
      .ok { timestamp := ts * 1000, player_id := pid, player_name := pname,
            velocity := q } := by
  have hall : ∀ c ∈ pid ++ (str ":" ++ pname), c ≠ '\'' :=
    forall_mem_append (digits_ne hpid (by decide))
      (forall_mem_append (by decide) hname)
  have h1 : splitOnce (str "' value=")
      (pid ++ (str ":" ++ (pname ++ (str "' value=" ++ v)))) =
      some (pid ++ (str ":" ++ pname), v) := by
    have := splitOnce_first_sep (str "' value=")
      (m := pid ++ (str ":" ++ pname)) (t := v)
      (NoOccPre.of_headfree_head rfl hall)
    simpa [List.append_assoc] using this
  have h2 : splitOnce (str ":") (pid ++ (str ":" ++ pname)) = some (pid, pname) := by
    have := splitOnce_first_sep (str ":") (m := pid) (t := pname)
      (NoOccPre.of_headfree_head rfl (digits_ne hpid (by decide)))
    simpa [List.append_assoc] using this
  unfold extract_velocity_event mkVelocityPayload
  rw [List.drop_left]
  rw [h1]
  simp [h2, hv]

/-- `extract_pickup_event` recovers the components of a clean pickup
payload; the item field is passed through the lookup table with no
constraint on its contents. -/
theorem extract_pickup_event_clean {pid pname item : List Char} (ts : Nat)
    (hpid : ∀ c ∈ pid, c.isDigit = true)
    (hname : ∀ c ∈ pname, c ≠ '\'') :
    extract_pickup_event (mkPickupPayload pid pname item) ts =
      .ok { timestamp := ts * 1000, player_id := pid, player_name := pname,
            item := dictGetD item_pickup_to_name item } := by
  have hall : ∀ c ∈ pid ++ (str ":" ++ pname), c ≠ '\'' :=
    forall_mem_append (digits_ne hpid (by decide))
      (forall_mem_append (by decide) hname)
  have h1 : splitOnce (str "' item=")
      (pid ++ (str ":" ++ (pname ++ (str "' item=" ++ item)))) =
      some (pid ++ (str ":" ++ pname), item) := by
    have := splitOnce_first_sep (str "' item=")
      (m := pid ++ (str ":" ++ pname)) (t := item)
      (NoOccPre.of_headfree_head rfl hall)
    simpa [List.append_assoc] using this
  have h2 : splitOnce (str ":") (pid ++ (str ":" ++ pname)) = some (pid, pname) := by
    have := splitOnce_first_sep (str ":") (m := pid) (t := pname)
      (NoOccPre.of_headfree_head rfl (digits_ne hpid (by decide)))
    simpa [List.append_assoc] using this
  unfold extract_pickup_event mkPickupPayload
  rw [List.drop_left]
  rw [h1]
  simp [h2]

/-- `extract_kill_event` recovers the components of a clean kill payload. -/
theorem extract_kill_event_clean {kid kname vid vname w s : List Char} (ts : Nat)
    (hkid : ∀ c ∈ kid, c.isDigit = true)
    (hkname : ∀ c ∈ kname, c ≠ '\'')
    (hvid : ∀ c ∈ vid, c.isDigit = true)
    (hvname : ∀ c ∈ vname, c ≠ '\'')
    (hw : ∀ c ∈ w, isTokenChar c = true)
    (hs : ∀ c ∈ s, isTokenChar c = true) :
    extract_kill_event (mkKillPayload kid kname vid vname w s) ts =
      .ok { timestamp := ts * 1000
            killer_id := kid
            killer_name := kname
            victim_id := vid
            victim_name := vname
            weapon := dictGetD WEAPON_ID_2_NAME w
            special := s
            is_suicide := kid == vid && !(w == LEAVE_GAME_KILL_ID) } := by
  have hallk : ∀ c ∈ kid ++ (str ":" ++ kname), c ≠ '\'' :=
    forall_mem_append (digits_ne hkid (by decide))
      (forall_mem_append (by decide) hkname)
  have hallv : ∀ c ∈ vid ++ (str ":" ++ vname), c ≠ '\'' :=
    forall_mem_append (digits_ne hvid (by decide))
      (forall_mem_append (by decide) hvname)
  have hallw : ∀ c ∈ w ++ (str " special=" ++ s), c ≠ '\'' :=
    forall_mem_append (tokens_ne hw (by decide))
      (forall_mem_append (by decide) (tokens_ne hs (by decide)))
  have h1 : splitOnce (str "' victim='")
      (kid ++ (str ":" ++ (kname ++ (str "' victim='" ++
        (vid ++ (str ":" ++ (vname ++ (str "' weapon=" ++
          (w ++ (str " special=" ++ s)))))))))) =
      some (kid ++ (str ":" ++ kname),
        vid ++ (str ":" ++ (vname ++ (str "' weapon=" ++
          (w ++ (str " special=" ++ s)))))) := by
    have := splitOnce_first_sep (str "' victim='")
      (m := kid ++ (str ":" ++ kname))
      (t := vid ++ (str ":" ++ (vname ++ (str "' weapon=" ++
        (w ++ (str " special=" ++ s))))))
      (NoOccPre.of_headfree_head rfl hallk)
    simpa [List.append_assoc] using this
  have h2 : splitOnce (str ":") (kid ++ (str ":" ++ kname)) = some (kid, kname) := by
    have := splitOnce_first_sep (str ":") (m := kid) (t := kname)
      (NoOccPre.of_headfree_head rfl (digits_ne hkid (by decide)))
    simpa [List.append_assoc] using this
  have h3a : splitOnce (str "' weapon=")
      (vid ++ (str ":" ++ (vname ++ (str "' weapon=" ++
        (w ++ (str " special=" ++ s)))))) =
      some (vid ++ (str ":" ++ vname), w ++ (str " special=" ++ s)) := by
    have := splitOnce_first_sep (str "' weapon=")
      (m := vid ++ (str ":" ++ vname)) (t := w ++ (str " special=" ++ s))
      (NoOccPre.of_headfree_head rfl hallv)
    simpa [List.append_assoc] using this
  have h3b : splitOnce (str "' weapon=") (w ++ (str " special=" ++ s)) = none :=
    splitOnce_none_head rfl hallw
  have h3 : splitAll2 (str "' weapon=")
      (vid ++ (str ":" ++ (vname ++ (str "' weapon=" ++
        (w ++ (str " special=" ++ s)))))) =
      some (vid ++ (str ":" ++ vname), w ++ (str " special=" ++ s)) := by
    unfold splitAll2
    rw [h3a]
    simp [h3b]
  have h4 : splitOnce (str ":") (vid ++ (str ":" ++ vname)) = some (vid, vname) := by
    have := splitOnce_first_sep (str ":") (m := vid) (t := vname)
      (NoOccPre.of_headfree_head rfl (digits_ne hvid (by decide)))
    simpa [List.append_assoc] using this
  have h5a : splitOnce (str " special=") (w ++ (str " special=" ++ s)) =
      some (w, s) := by
    have := splitOnce_first_sep (str " special=") (m := w) (t := s)
      (NoOccPre.of_headfree_head rfl (tokens_ne hw (by decide)))
    simpa [List.append_assoc] using this
  have h5b : splitOnce (str " special=") s = none :=
    splitOnce_none_head rfl (tokens_ne hs (by decide))
  have h5 : splitAll2 (str " special=") (w ++ (str " special=" ++ s)) =
      some (w, s) := by
    unfold splitAll2
    rw [h5a]
    simp [h5b]
  unfold extract_kill_event mkKillPayload
  rw [List.drop_left]
  rw [h1]
  simp [h2, h3, h4, h5]

/-! ## Occurrence analysis for the kill delimiters

The delimiter `"' weapon="` has no nontrivial self-overlap, does not occur
inside `"' victim='"`, and cannot begin inside an id-colon region; these
facts bound where it can occur in a kill payload even when the name fields
contain apostrophes. -/

/-- No nonempty proper suffix of `"' weapon="` is a prefix of a string that
starts with `"' weapon="` itself (the delimiter has no self-overlap). -/
theorem d2_straddle_self (k : Nat) (h1 : 0 < k)
    (h2 : k < (str "' weapon=").length) (X : List Char) :
    ¬ (str "' weapon=").drop k <+: (str "' weapon=" ++ X) := by
  intro hcon
  have hlen : ((str "' weapon=").drop k).length ≤ (str "' weapon=").length := by
    rw [List.length_drop]; omega
  have hsh := prefix_of_append_of_length_le hcon hlen
  have h9 : (str "' weapon=").length = 9 := rfl
  rw [h9] at h2
  interval_cases k <;> revert hsh <;> decide

/-- No nonempty proper suffix of `"' weapon="` is a prefix of a string that
starts with `"' victim='"`. -/
theorem d2_straddle_d1 (k : Nat) (h1 : 0 < k)
    (h2 : k < (str "' weapon=").length) (Z : List Char) :
    ¬ (str "' weapon=").drop k <+: (str "' victim='" ++ Z) := by
  intro hcon
  have hlen : ((str "' weapon=").drop k).length ≤ (str "' victim='").length := by
    rw [List.length_drop]
    have h9 : (str "' weapon=").length = 9 := rfl
    have h10 : (str "' victim='").length = 10 := rfl
    rw [h9, h10]; omega
  have hsh := prefix_of_append_of_length_le hcon hlen
  have h9 : (str "' weapon=").length = 9 := rfl
  rw [h9] at h2
  interval_cases k <;> revert hsh <;> decide

/-- A string whose head is neither a digit nor a colon is no prefix of
`vid ++ ":" ++ Y` when `vid` is a digit string. -/
theorem noPrefix_digitColon {p vid Y : List Char} {c0 : Char}
    (hvid : ∀ c ∈ vid, c.isDigit = true)
    (hd : p.head? = some c0) (hcol : c0 ≠ ':') (hdig : c0.isDigit = false) :
    ¬ p <+: (vid ++ (str ":" ++ Y)) := by
  cases p with
  | nil => simp at hd
  | cons c tl =>
    simp only [List.head?_cons, Option.some.injEq] at hd
    subst hd
    intro hcon
    cases vid with
    | nil =>
      rw [List.nil_append, show str ":" ++ Y = ':' :: Y from rfl,
        List.cons_prefix_cons] at hcon
      exact hcol hcon.1
    | cons d vtl =>
      rw [List.cons_append, List.cons_prefix_cons] at hcon
      have hd2 := hvid d (List.mem_cons_self d vtl)
      rw [← hcon.1, hdig] at hd2
      cases hd2

/-- No nonempty proper suffix of `"' weapon="` is a prefix of an id-colon
region. -/
theorem d2_straddle_idcolon (k : Nat) (h1 : 0 < k)
    (h2 : k < (str "' weapon=").length) {vid : List Char}
    (hvid : ∀ c ∈ vid, c.isDigit = true) (Y : List Char) :
    ¬ (str "' weapon=").drop k <+: (vid ++ (str ":" ++ Y)) := by
  have h9 : (str "' weapon=").length = 9 := rfl
  rw [h9] at h2
  interval_cases k <;>
    exact noPrefix_digitColon hvid rfl (by decide) (by decide)

/-- The first occurrence of `"' victim='"` in the decoded kill payload
cannot start inside the killer id: occurrences start with an apostrophe,
and the id region holds only digits followed by a colon. -/
theorem no_quote_occ_in_id {pid X : List Char} {j : Nat}
    (hpid : ∀ c ∈ pid, c.isDigit = true) (hj : j ≤ pid.length)
    {tl : List Char}
    (hcon : ('\'' :: tl) <+: (pid ++ (str ":" ++ X)).drop j) : False := by
  rw [List.drop_append_eq_append_drop] at hcon
  rcases Nat.lt_or_ge j pid.length with hlt | hge
  · cases hd : pid.drop j with
    | nil =>
      have := List.length_drop j pid
      rw [hd] at this
      simp at this
      omega
    | cons c tail =>
      rw [hd, List.cons_append, List.cons_prefix_cons] at hcon
      have hc : c ∈ pid := List.mem_of_mem_drop (hd ▸ List.mem_cons_self c tail)
      have hdig := hpid c hc
      rw [← hcon.1] at hdig
      cases hdig
  · have hj' : j = pid.length := le_antisymm hj hge
    subst hj'
    rw [List.drop_length, List.nil_append, Nat.sub_self, List.drop_zero,
      show str ":" ++ X = ':' :: X from rfl, List.cons_prefix_cons] at hcon
    cases hcon.1

/-- The kill extractor succeeds on every grammar payload whose ids are
digit strings, whose weapon/special fields are numeric tokens, and whose
name fields contain no occurrence of the delimiter `"' weapon="` (the names
may contain apostrophes and other delimiter fragments, which can shift the
first `"' victim='"` split but never make any split fail). -/
theorem extract_kill_event_succeeds {kid kname vid vname w s : List Char} (ts : Nat)
    (hkid : ∀ c ∈ kid, c.isDigit = true)
    (hvid : ∀ c ∈ vid, c.isDigit = true)
    (hw : ∀ c ∈ w, isTokenChar c = true)
    (hs : ∀ c ∈ s, isTokenChar c = true)
    (hkn2 : ¬ str "' weapon=" <:+: kname)
    (hvn2 : ¬ str "' weapon=" <:+: vname) :
    ∃ r, extract_kill_event (mkKillPayload kid kname vid vname w s) ts = .ok r := by
  have l_colon : (str ":").length = 1 := rfl
  have l_d1 : (str "' victim='").length = 10 := rfl
  -- Step 1: the first split finds some occurrence (the real delimiter exists).
  have hsome1 : (splitOnce (str "' victim='")
      (kid ++ (str ":" ++ (kname ++ (str "' victim='" ++
        (vid ++ (str ":" ++ (vname ++ (str "' weapon=" ++
          (w ++ (str " special=" ++ s))))))))))).isSome := by
    have hdec : kid ++ (str ":" ++ (kname ++ (str "' victim='" ++
        (vid ++ (str ":" ++ (vname ++ (str "' weapon=" ++
          (w ++ (str " special=" ++ s))))))))) =
        (kid ++ (str ":" ++ kname)) ++ str "' victim='" ++
          (vid ++ (str ":" ++ (vname ++ (str "' weapon=" ++
            (w ++ (str " special=" ++ s)))))) := by
      simp [List.append_assoc]
    rw [hdec]
    exact splitOnce_isSome_decomp _ _
  obtain ⟨⟨p, q⟩, h1⟩ := Option.isSome_iff_exists.mp hsome1
  have hdecomp := splitOnce_some_decomp h1
  have hple : p.length ≤ (kid ++ (str ":" ++ kname)).length := by
    apply splitOnce_min_le h1
      (b := vid ++ (str ":" ++ (vname ++ (str "' weapon=" ++
        (w ++ (str " special=" ++ s))))))
    simp [List.append_assoc]
  -- Step 2: the first occurrence starts after the killer id and its colon.
  have hpgt : kid.length < p.length := by
    by_contra hcon
    push_neg at hcon
    have hpre : str "' victim='" <+: (kid ++ (str ":" ++ (kname ++
        (str "' victim='" ++ (vid ++ (str ":" ++ (vname ++ (str "' weapon=" ++
          (w ++ (str " special=" ++ s)))))))))).drop p.length := by
      rw [hdecomp, List.append_assoc, List.drop_left]
      exact List.prefix_append _ _
    rw [show str "' victim='" = '\'' :: str " victim='" from rfl] at hpre
    exact no_quote_occ_in_id hkid hcon hpre
  -- Step 3: hence the killer part contains the id colon.
  have hp_pre : p <+: kid ++ (str ":" ++ (kname ++ (str "' victim='" ++
      (vid ++ (str ":" ++ (vname ++ (str "' weapon=" ++
        (w ++ (str " special=" ++ s))))))))) := by
    have h := List.prefix_append p (str "' victim='" ++ q)
    rw [← List.append_assoc, ← hdecomp] at h
    exact h
  have hks : kid ++ str ":" <+: kid ++ (str ":" ++ (kname ++ (str "' victim='" ++
      (vid ++ (str ":" ++ (vname ++ (str "' weapon=" ++
        (w ++ (str " special=" ++ s))))))))) := by
    have h := List.prefix_append (kid ++ str ":") (kname ++ (str "' victim='" ++
      (vid ++ (str ":" ++ (vname ++ (str "' weapon=" ++
        (w ++ (str " special=" ++ s))))))))
    rw [List.append_assoc] at h
    exact h
  have hmem : ':' ∈ p := by
    have hcolmem : ':' ∈ kid ++ str ":" :=
      List.mem_append.mpr (Or.inr (by decide))
    rcases List.prefix_or_prefix_of_prefix hks hp_pre with hc | hc
    · exact hc.subset hcolmem
    · have hlen := hc.length_le
      simp only [List.length_append, l_colon] at hlen
      have heq : p = kid ++ str ":" := hc.eq_of_length (by
        simp only [List.length_append, l_colon]; omega)
      rw [heq]
      exact hcolmem
  obtain ⟨u, v, huv⟩ := List.append_of_mem hmem
  have h2some : (splitOnce (str ":") p).isSome := by
    rw [huv, show u ++ ':' :: v = u ++ str ":" ++ v from by
      rw [List.append_assoc]; rfl]
    exact splitOnce_isSome_decomp u v
  obtain ⟨⟨ki, kn⟩, h2⟩ := Option.isSome_iff_exists.mp h2some
  -- Step 4: locate q inside the payload.
  have hq := splitOnce_some_drop h1
  have hPR : kid ++ (str ":" ++ (kname ++ (str "' victim='" ++
      (vid ++ (str ":" ++ (vname ++ (str "' weapon=" ++
        (w ++ (str " special=" ++ s))))))))) =
      (kid ++ (str ":" ++ (kname ++ (str "' victim='" ++
        (vid ++ (str ":" ++ vname)))))) ++
        (str "' weapon=" ++ (w ++ (str " special=" ++ s))) := by
    simp [List.append_assoc]
  have hlenP : p.length + (str "' victim='").length ≤
      (kid ++ (str ":" ++ (kname ++ (str "' victim='" ++
        (vid ++ (str ":" ++ vname)))))).length := by
    simp only [List.length_append, l_colon, l_d1] at hple ⊢
    omega
  have hqPR : q = (kid ++ (str ":" ++ (kname ++ (str "' victim='" ++
      (vid ++ (str ":" ++ vname)))))).drop
        (p.length + (str "' victim='").length) ++
      (str "' weapon=" ++ (w ++ (str " special=" ++ s))) := by
    rw [hq, hPR, List.drop_append_eq_append_drop,
      show p.length + (str "' victim='").length -
        (kid ++ (str ":" ++ (kname ++ (str "' victim='" ++
          (vid ++ (str ":" ++ vname)))))).length = 0 from by omega,
      List.drop_zero]
  -- Step 5: no occurrence of "' weapon=" starts before the real one.
  have h_vname : NoOccPre (str "' weapon=") vname
      (str "' weapon=" ++ (w ++ (str " special=" ++ s))) :=
    NoOccPre.of_infix_free hvn2 (fun k hk1 hk2 => d2_straddle_self k hk1 hk2 _)
  have h_cv : NoOccPre (str "' weapon=") (str ":" ++ vname)
      (str "' weapon=" ++ (w ++ (str " special=" ++ s))) :=
    NoOccPre.append (NoOccPre.of_headfree_head rfl (by decide)) h_vname
  have h_vcv : NoOccPre (str "' weapon=") (vid ++ (str ":" ++ vname))
      (str "' weapon=" ++ (w ++ (str " special=" ++ s))) :=
    NoOccPre.append (NoOccPre.of_headfree_head rfl (digits_ne hvid (by decide))) h_cv
  have h_d1 : NoOccPre (str "' weapon=") (str "' victim='")
      ((vid ++ (str ":" ++ vname)) ++
        (str "' weapon=" ++ (w ++ (str " special=" ++ s)))) := by
    apply NoOccPre.of_infix_free (by decide)
    intro k hk1 hk2 hcon
    apply d2_straddle_idcolon k hk1 hk2 hvid
      (vname ++ (str "' weapon=" ++ (w ++ (str " special=" ++ s))))
    simpa [List.append_assoc] using hcon
  have h_d1v : NoOccPre (str "' weapon=") (str "' victim='" ++
      (vid ++ (str ":" ++ vname)))
      (str "' weapon=" ++ (w ++ (str " special=" ++ s))) :=
    NoOccPre.append h_d1 h_vcv
  have h_kname : NoOccPre (str "' weapon=") kname
      ((str "' victim='" ++ (vid ++ (str ":" ++ vname))) ++
        (str "' weapon=" ++ (w ++ (str " special=" ++ s)))) := by
    apply NoOccPre.of_infix_free hkn2
    intro k hk1 hk2 hcon
    apply d2_straddle_d1 k hk1 hk2
      ((vid ++ (str ":" ++ vname)) ++
        (str "' weapon=" ++ (w ++ (str " special=" ++ s))))
    simpa [List.append_assoc] using hcon
  have h_kd : NoOccPre (str "' weapon=") (kname ++ (str "' victim='" ++
      (vid ++ (str ":" ++ vname))))
      (str "' weapon=" ++ (w ++ (str " special=" ++ s))) :=
    NoOccPre.append h_kname h_d1v
  have h_ckd : NoOccPre (str "' weapon=") (str ":" ++ (kname ++
      (str "' victim='" ++ (vid ++ (str ":" ++ vname)))))
      (str "' weapon=" ++ (w ++ (str " special=" ++ s))) :=
    NoOccPre.append (NoOccPre.of_headfree_head rfl (by decide)) h_kd
  have h_P : NoOccPre (str "' weapon=") (kid ++ (str ":" ++ (kname ++
      (str "' victim='" ++ (vid ++ (str ":" ++ vname))))))
      (str "' weapon=" ++ (w ++ (str " special=" ++ s))) :=
    NoOccPre.append (NoOccPre.of_headfree_head rfl (digits_ne hkid (by decide))) h_ckd
  -- Step 6: the weapon split finds exactly the real delimiter.
  have hallw : ∀ c ∈ w ++ (str " special=" ++ s), c ≠ '\'' :=
    forall_mem_append (tokens_ne hw (by decide))
      (forall_mem_append (by decide) (tokens_ne hs (by decide)))
  have h3a : splitOnce (str "' weapon=") q =
      some ((kid ++ (str ":" ++ (kname ++ (str "' victim='" ++
        (vid ++ (str ":" ++ vname)))))).drop
          (p.length + (str "' victim='").length),
        w ++ (str " special=" ++ s)) := by
    rw [hqPR]
    have := splitOnce_first_sep (str "' weapon=")
      (m := (kid ++ (str ":" ++ (kname ++ (str "' victim='" ++
        (vid ++ (str ":" ++ vname)))))).drop
          (p.length + (str "' victim='").length))
      (t := w ++ (str " special=" ++ s))
      (h_P.drop (p.length + (str "' victim='").length))
    simpa [List.append_assoc] using this
  have h3b : splitOnce (str "' weapon=") (w ++ (str " special=" ++ s)) = none :=
    splitOnce_none_head rfl hallw
  have h3 : splitAll2 (str "' weapon=") q =
      some ((kid ++ (str ":" ++ (kname ++ (str "' victim='" ++
        (vid ++ (str ":" ++ vname)))))).drop
          (p.length + (str "' victim='").length),
        w ++ (str " special=" ++ s)) := by
    unfold splitAll2
    rw [h3a]
    simp [h3b]
  -- Step 7: the victim part still contains its id colon.
  have hGP : kid ++ (str ":" ++ (kname ++ (str "' victim='" ++
      (vid ++ (str ":" ++ vname))))) =
      (kid ++ (str ":" ++ (kname ++ str "' victim='"))) ++
        (vid ++ (str ":" ++ vname)) := by
    simp [List.append_assoc]
  have hnG : p.length + (str "' victim='").length ≤
      (kid ++ (str ":" ++ (kname ++ str "' victim='"))).length := by
    simp only [List.length_append, l_colon, l_d1] at hple ⊢
    omega
  have hMdec : (kid ++ (str ":" ++ (kname ++ (str "' victim='" ++
      (vid ++ (str ":" ++ vname)))))).drop
        (p.length + (str "' victim='").length) =
      (kid ++ (str ":" ++ (kname ++ str "' victim='"))).drop
        (p.length + (str "' victim='").length) ++
        (vid ++ (str ":" ++ vname)) := by
    rw [hGP, List.drop_append_eq_append_drop,
      show p.length + (str "' victim='").length -
        (kid ++ (str ":" ++ (kname ++ str "' victim='"))).length = 0 from by
          omega,
      List.drop_zero]
  have hmemM : ':' ∈ (kid ++ (str ":" ++ (kname ++ (str "' victim='" ++
      (vid ++ (str ":" ++ vname)))))).drop
        (p.length + (str "' victim='").length) := by
    rw [hMdec]
    exact List.mem_append.mpr (Or.inr (List.mem_append.mpr (Or.inr
      (List.mem_append.mpr (Or.inl (by decide))))))
  obtain ⟨u2, v2, huv2⟩ := List.append_of_mem hmemM
  have h4some : (splitOnce (str ":")
      ((kid ++ (str ":" ++ (kname ++ (str "' victim='" ++
        (vid ++ (str ":" ++ vname)))))).drop
          (p.length + (str "' victim='").length))).isSome := by
    rw [huv2, show u2 ++ ':' :: v2 = u2 ++ str ":" ++ v2 from by
      rw [List.append_assoc]; rfl]
    exact splitOnce_isSome_decomp u2 v2
  obtain ⟨⟨vi, vn⟩, h4⟩ := Option.isSome_iff_exists.mp h4some
  -- Step 8: the special split lands exactly on its delimiter.
  have h5a : splitOnce (str " special=") (w ++ (str " special=" ++ s)) =
      some (w, s) := by
    have := splitOnce_first_sep (str " special=") (m := w) (t := s)
      (NoOccPre.of_headfree_head rfl (tokens_ne hw (by decide)))
    simpa [List.append_assoc] using this
  have h5b : splitOnce (str " special=") s = none :=
    splitOnce_none_head rfl (tokens_ne hs (by decide))
  have h5 : splitAll2 (str " special=") (w ++ (str " special=" ++ s)) =
      some (w, s) := by
    unfold splitAll2
    rw [h5a]
    simp [h5b]
  -- Assemble.
  have hfin : extract_kill_event (mkKillPayload kid kname vid vname w s) ts =
      .ok { timestamp := ts * 1000, killer_id := ki, killer_name := kn,
            victim_id := vi, victim_name := vn,
            weapon := dictGetD WEAPON_ID_2_NAME w, special := s,
            is_suicide := ki == vi && !(w == LEAVE_GAME_KILL_ID) } := by
    unfold extract_kill_event mkKillPayload
    rw [List.drop_left, h1]
    simp [h2, h3, h4, h5]
  exact ⟨_, hfin⟩

/-- The kill extractor fails on every grammar payload whose victim name
contains the literal `"' weapon="`: the weapon split is applied to every
occurrence (no maxsplit), yields at least three parts, and the unpacking
raises `ValueError`.  No constraint at all is needed on the other
components. -/
theorem extract_kill_event_fails_weapon_in_name
    (kid kname vid n1 n2 w s : List Char) (ts : Nat) :
    ∃ e, extract_kill_event
      (mkKillPayload kid kname vid (n1 ++ (str "' weapon=" ++ n2)) w s) ts =
      .error e := by
  have l_colon : (str ":").length = 1 := rfl
  have l_d1 : (str "' victim='").length = 10 := rfl
  have hsome1 : (splitOnce (str "' victim='")
      (kid ++ (str ":" ++ (kname ++ (str "' victim='" ++
        (vid ++ (str ":" ++ ((n1 ++ (str "' weapon=" ++ n2)) ++
          (str "' weapon=" ++ (w ++ (str " special=" ++ s))))))))))).isSome := by
    have hdec : kid ++ (str ":" ++ (kname ++ (str "' victim='" ++
        (vid ++ (str ":" ++ ((n1 ++ (str "' weapon=" ++ n2)) ++
          (str "' weapon=" ++ (w ++ (str " special=" ++ s))))))))) =
        (kid ++ (str ":" ++ kname)) ++ str "' victim='" ++
          (vid ++ (str ":" ++ ((n1 ++ (str "' weapon=" ++ n2)) ++
            (str "' weapon=" ++ (w ++ (str " special=" ++ s)))))) := by
      simp [List.append_assoc]
    rw [hdec]
    exact splitOnce_isSome_decomp _ _
  obtain ⟨⟨p, q⟩, h1⟩ := Option.isSome_iff_exists.mp hsome1
  have hple : p.length ≤ (kid ++ (str ":" ++ kname)).length := by
    apply splitOnce_min_le h1
      (b := vid ++ (str ":" ++ ((n1 ++ (str "' weapon=" ++ n2)) ++
        (str "' weapon=" ++ (w ++ (str " special=" ++ s))))))
    simp [List.append_assoc]
  have hq := splitOnce_some_drop h1
  -- Locate q after the first split: it still contains both weapon
  -- delimiters (the one inside the victim name, and the real one).
  have hGX : kid ++ (str ":" ++ (kname ++ (str "' victim='" ++
      (vid ++ (str ":" ++ ((n1 ++ (str "' weapon=" ++ n2)) ++
        (str "' weapon=" ++ (w ++ (str " special=" ++ s))))))))) =
      (kid ++ (str ":" ++ (kname ++ str "' victim='"))) ++
        (vid ++ (str ":" ++ (n1 ++ (str "' weapon=" ++ (n2 ++
          (str "' weapon=" ++ (w ++ (str " special=" ++ s)))))))) := by
    simp [List.append_assoc]
  have hnG : p.length + (str "' victim='").length ≤
      (kid ++ (str ":" ++ (kname ++ str "' victim='"))).length := by
    simp only [List.length_append, l_colon, l_d1] at hple ⊢
    omega
  have hqGX : q = (kid ++ (str ":" ++ (kname ++ str "' victim='"))).drop
      (p.length + (str "' victim='").length) ++
      (vid ++ (str ":" ++ (n1 ++ (str "' weapon=" ++ (n2 ++
        (str "' weapon=" ++ (w ++ (str " special=" ++ s)))))))) := by
    rw [hq, hGX, List.drop_append_eq_append_drop,
      show p.length + (str "' victim='").length -
        (kid ++ (str ":" ++ (kname ++ str "' victim='"))).length = 0 from by
          omega,
      List.drop_zero]
  have hdec2 : q = ((kid ++ (str ":" ++ (kname ++ str "' victim='"))).drop
        (p.length + (str "' victim='").length) ++
        (vid ++ (str ":" ++ n1))) ++ str "' weapon=" ++ n2 ++
        str "' weapon=" ++ (w ++ (str " special=" ++ s)) := by
    rw [hqGX]
    simp [List.append_assoc]
  have h3some : (splitOnce (str "' weapon=") q).isSome := by
    rw [show q = ((kid ++ (str ":" ++ (kname ++ str "' victim='"))).drop
        (p.length + (str "' victim='").length) ++
        (vid ++ (str ":" ++ n1))) ++ str "' weapon=" ++ (n2 ++
        (str "' weapon=" ++ (w ++ (str " special=" ++ s)))) from by
      rw [hdec2]; simp [List.append_assoc]]
    exact splitOnce_isSome_decomp _ _
  obtain ⟨⟨a0, b0⟩, h3a⟩ := Option.isSome_iff_exists.mp h3some
  have hb0 : (splitOnce (str "' weapon=") b0).isSome :=
    splitOnce_second_isSome h3a hdec2
  obtain ⟨x0, hx0⟩ := Option.isSome_iff_exists.mp hb0
  have h3none : splitAll2 (str "' weapon=") q = none := by
    unfold splitAll2
    rw [h3a]
    simp [hx0]
  refine ⟨.valueError, ?_⟩
  unfold extract_kill_event mkKillPayload
  rw [List.drop_left, h1]
  cases h2c : splitOnce (str ":") p with
  | none => simp [h2c]
  | some kikn => simp [h2c, h3none]

/-! ## Claim theorems -/

/-- C2: for every kill payload matching the §4.2 grammar, the produced
record has `is_suicide = true` iff the killer id equals the victim id AND
the raw weapon token is not the leave/team-switch sentinel `"-3"`; in
particular, equal ids with weapon token `"-3"` give `is_suicide = false`. -/
theorem claim_C2_is_suicide {kid kname vid vname w s : List Char} (ts : Nat)
    (hkid : ∀ c ∈ kid, c.isDigit = true)
    (hkname : ∀ c ∈ kname, c ≠ '\'')
    (hvid : ∀ c ∈ vid, c.isDigit = true)
    (hvname : ∀ c ∈ vname, c ≠ '\'')
    (hw : ∀ c ∈ w, isTokenChar c = true)
    (hs : ∀ c ∈ s, isTokenChar c = true) :
    ∃ r : KillRecord,
      extract_kill_event (mkKillPayload kid kname vid vname w s) ts = .ok r ∧
        (r.is_suicide = true ↔ (kid = vid ∧ w ≠ LEAVE_GAME_KILL_ID)) := by
  refine ⟨_, extract_kill_event_clean ts hkid hkname hvid hvname hw hs, ?_⟩
  simp [Bool.and_eq_true]

/-- C2 witness: Alex self-kill with the leave sentinel weapon `-3`; the ids
are equal but `is_suicide` is false (`¬("-3" ≠ "-3")`). -/
theorem claim_C2_is_suicide_witness :
    ∃ r : KillRecord,
      extract_kill_event (mkKillPayload (str "1") (str "Alex") (str "1")
        (str "Alex") (str "-3") (str "0")) 5 = .ok r ∧
        (r.is_suicide = true ↔ (str "1" = str "1" ∧ str "-3" ≠ LEAVE_GAME_KILL_ID)) :=
  claim_C2_is_suicide 5 (by decide) (by decide) (by decide) (by decide)
    (by decide) (by decide)

/-- C7: splitting the concatenation `id ++ ":" ++ name` on the first colon
— the operation every extractor applies to its player part — reproduces
exactly the pair `(id, name)` whenever `id` contains no colon, even when
`name` itself contains colons. -/
theorem claim_C7_roundtrip {pid pname : List Char}
    (hpid : ∀ c ∈ pid, c ≠ ':') :
    splitOnce (str ":") (pid ++ (str ":" ++ pname)) = some (pid, pname) := by
  have := splitOnce_first_sep (str ":") (m := pid) (t := pname)
    (NoOccPre.of_headfree_head rfl hpid)
  simpa [List.append_assoc] using this

/-- C7 witness: a name containing colons round-trips (split on first, not
split on all). -/
theorem claim_C7_roundtrip_witness :
    splitOnce (str ":") (str "7" ++ (str ":" ++ str "a:b:c")) =
      some (str "7", str "a:b:c") :=
  claim_C7_roundtrip (by decide)

/-- C8: on grammar payloads, the kill record's weapon field is the fixed
human label when the raw token is a key of `WEAPON_ID_2_NAME` and the raw
token itself otherwise; likewise the pickup record's item field is the
fixed label for known codes of `item_pickup_to_name` and the raw code
verbatim for codes absent from the table. -/
theorem claim_C8_lookup_tables {kid kname vid vname w s pid pname item : List Char}
    (ts : Nat)
    (hkid : ∀ c ∈ kid, c.isDigit = true)
    (hkname : ∀ c ∈ kname, c ≠ '\'')
    (hvid : ∀ c ∈ vid, c.isDigit = true)
    (hvname : ∀ c ∈ vname, c ≠ '\'')
    (hw : ∀ c ∈ w, isTokenChar c = true)
    (hs : ∀ c ∈ s, isTokenChar c = true)
    (hpid : ∀ c ∈ pid, c.isDigit = true)
    (hpname : ∀ c ∈ pname, c ≠ '\'') :
    (∃ r : KillRecord,
      extract_kill_event (mkKillPayload kid kname vid vname w s) ts = .ok r ∧
        (∀ nm, WEAPON_ID_2_NAME.lookup w = some nm → r.weapon = nm) ∧
        (WEAPON_ID_2_NAME.lookup w = none → r.weapon = w)) ∧
    (∃ r : PickupRecord,
      extract_pickup_event (mkPickupPayload pid pname item) ts = .ok r ∧
        (∀ nm, item_pickup_to_name.lookup item = some nm → r.item = nm) ∧
        (item_pickup_to_name.lookup item = none → r.item = item)) := by
  constructor
  · refine ⟨_, extract_kill_event_clean ts hkid hkname hvid hvname hw hs, ?_, ?_⟩
    · intro nm hnm
      simp [dictGetD, hnm]
    · intro hnone
      simp [dictGetD, hnone]
  · refine ⟨_, extract_pickup_event_clean ts hpid hpname, ?_, ?_⟩
    · intro nm hnm
      simp [dictGetD, hnm]
    · intro hnone
      simp [dictGetD, hnone]

/-- C8 witness: weapon code `5` is known (`ninja`); pickup code `7/7` is
absent from the table and passes through verbatim. -/
theorem claim_C8_lookup_tables_witness :
    (∃ r : KillRecord,
      extract_kill_event (mkKillPayload (str "1") (str "A") (str "2")
        (str "B") (str "5") (str "0")) 3 = .ok r ∧
        (∀ nm, WEAPON_ID_2_NAME.lookup (str "5") = some nm → r.weapon = nm) ∧
        (WEAPON_ID_2_NAME.lookup (str "5") = none → r.weapon = str "5")) ∧
    (∃ r : PickupRecord,
      extract_pickup_event (mkPickupPayload (str "4") (str "Lior  nco")
        (str "7/7")) 3 = .ok r ∧
        (∀ nm, item_pickup_to_name.lookup (str "7/7") = some nm → r.item = nm) ∧
        (item_pickup_to_name.lookup (str "7/7") = none → r.item = str "7/7")) :=
  claim_C8_lookup_tables 3 (by decide) (by decide) (by decide) (by decide)
    (by decide) (by decide) (by decide) (by decide)

/-- C10: the kill extractor splits on EVERY occurrence of `"' weapon="`
(no maxsplit), unlike the other delimiters.  (a) On every grammar payload
whose killer and victim names contain no occurrence of the literals
`"' victim='"` and `"' weapon="`, extraction succeeds; (b) on every grammar
payload whose victim name contains the literal `"' weapon="`, extraction
fails instead of producing a record. -/
theorem claim_C10_weapon_split_all :
    (∀ (kid kname vid vname w s : List Char) (ts : Nat),
      (∀ c ∈ kid, c.isDigit = true) → (∀ c ∈ vid, c.isDigit = true) →
      (∀ c ∈ w, isTokenChar c = true) → (∀ c ∈ s, isTokenChar c = true) →
      ¬ str "' victim='" <:+: kname → ¬ str "' weapon=" <:+: kname →
      ¬ str "' victim='" <:+: vname → ¬ str "' weapon=" <:+: vname →
      ∃ r, extract_kill_event (mkKillPayload kid kname vid vname w s) ts = .ok r) ∧
    (∀ (kid kname vid n1 n2 w s : List Char) (ts : Nat),
      ∃ e, extract_kill_event
        (mkKillPayload kid kname vid (n1 ++ (str "' weapon=" ++ n2)) w s) ts =
        .error e) := by
  constructor
  · intro kid kname vid vname w s ts hkid hvid hw hs _ hkn2 _ hvn2
    exact extract_kill_event_succeeds ts hkid hvid hw hs hkn2 hvn2
  · intro kid kname vid n1 n2 w s ts
    exact extract_kill_event_fails_weapon_in_name kid kname vid n1 n2 w s ts

/-- C10 witness: names containing apostrophes and delimiter fragments but
no full delimiter still extract (part a, applied to the name `O'Brien
victim`); a victim name containing `' weapon=` makes extraction fail
(part b). -/
theorem claim_C10_weapon_split_all_witness :
    (∃ r, extract_kill_event (mkKillPayload (str "1") (str "O'Brien victim")
      (str "2") (str "x' victim") (str "-1") (str "0")) 7 = .ok r) ∧
    (∃ e, extract_kill_event (mkKillPayload (str "1") (str "A") (str "2")
      (str "evil" ++ (str "' weapon=" ++ str "name")) (str "0") (str "0")) 7 =
      .error e) :=
  ⟨claim_C10_weapon_split_all.1 (str "1") (str "O'Brien victim") (str "2")
      (str "x' victim") (str "-1") (str "0") 7
      (by decide) (by decide) (by decide) (by decide)
      (by decide) (by decide) (by decide) (by decide),
    claim_C10_weapon_split_all.2 (str "1") (str "A") (str "2")
      (str "evil") (str "name") (str "0") (str "0") 7⟩

/-! ## Ingestion-loop invariants -/

/-- Batching only regroups: the delivered batches followed by the final
buffer are exactly the successfully extracted events, in input order. -/
theorem runLines_decomp : ∀ (lines : List (List Char)) (st : LoopState),
    (runLines st lines).1.delivered.flatten ++ (runLines st lines).1.buffer =
      st.delivered.flatten ++ st.buffer ++ producedEvents lines := by
  intro lines
  induction lines with
  | nil => intro st; simp [runLines, producedEvents]
  | cons l ls ih =>
    intro st
    cases hc : processLineCore l with
    | error e =>
      simp [runLines, processLine, producedEvents, hc]
    | ok outcome =>
      cases outcome with
      | skip d =>
        simp only [runLines, processLine, producedEvents, hc]
        rw [ih]
      | event ev =>
        simp only [runLines, processLine, producedEvents, hc]
        by_cases hlen : 5 < (st.buffer ++ [ev]).length
        · simp only [hlen, if_true]
          rw [ih]
          simp [List.append_assoc]
        · simp only [hlen, if_false]
          rw [ih]
          simp [List.append_assoc]

/-- The loop never holds more than five buffered events between iterations,
and every delivered batch has exactly six records. -/
theorem runLines_bound : ∀ (lines : List (List Char)) (st : LoopState),
    st.buffer.length ≤ 5 → (∀ b ∈ st.delivered, b.length = 6) →
    (runLines st lines).1.buffer.length ≤ 5 ∧
      ∀ b ∈ (runLines st lines).1.delivered, b.length = 6 := by
  intro lines
  induction lines with
  | nil => intro st h1 h2; exact ⟨h1, h2⟩
  | cons l ls ih =>
    intro st h1 h2
    cases hc : processLineCore l with
    | error e => simp only [runLines, processLine, hc]; exact ⟨h1, h2⟩
    | ok outcome =>
      cases outcome with
      | skip d =>
        simp only [runLines, processLine, hc]
        exact ih _ h1 h2
      | event ev =>
        simp only [runLines, processLine, hc]
        by_cases hlen : 5 < (st.buffer ++ [ev]).length
        · simp only [hlen, if_true]
          apply ih
          · simp
          · intro b hb
            rcases List.mem_append.mp hb with hb | hb
            · exact h2 b hb
            · simp only [List.mem_singleton] at hb
              subst hb
              simp only [List.length_append, List.length_singleton]
              simp only [List.length_append, List.length_singleton] at hlen
              omega
        · simp only [hlen, if_false]
          apply ih
          · simp only [List.length_append, List.length_singleton] at hlen ⊢
            omega
          · exact h2

/-- One loop iteration on a successfully processed line: the buffer stays
at five or fewer, and either nothing is delivered, or the buffer held five
records, the appended event made six, exactly those six are delivered, and
the buffer is reset to empty. -/
theorem processLine_step {st st' : LoopState} {line : List Char}
    (hb : st.buffer.length ≤ 5)
    (h : processLine st line = .ok st') :
    st'.buffer.length ≤ 5 ∧
      (st'.delivered = st.delivered ∨
        (st.buffer.length = 5 ∧ ∃ ev,
          st'.delivered = st.delivered ++ [st.buffer ++ [ev]] ∧
          st'.buffer = [])) := by
  unfold processLine at h
  cases hc : processLineCore line with
  | error e => rw [hc] at h; cases h
  | ok outcome =>
    rw [hc] at h
    cases outcome with
    | skip d =>
      simp only [Except.ok.injEq] at h
      subst h
      exact ⟨hb, Or.inl rfl⟩
    | event ev =>
      simp only [] at h
      by_cases hlen : 5 < (st.buffer ++ [ev]).length
      · rw [if_pos hlen] at h
        simp only [Except.ok.injEq] at h
        subst h
        refine ⟨by simp, Or.inr ⟨?_, ev, rfl, rfl⟩⟩
        simp only [List.length_append, List.length_singleton] at hlen
        omega
      · rw [if_neg hlen] at h
        simp only [Except.ok.injEq] at h
        subst h
        refine ⟨?_, Or.inl rfl⟩
        simp only [List.length_append, List.length_singleton] at hlen ⊢
        omega

/-- Processing the empty line returned by `readline()` at end of input
always raises `IndexError` (no `'['` to split on). -/
theorem processLine_empty (st : LoopState) :
    processLine st [] = .error .indexError := rfl

/-- C3: starting from the empty buffer, every state the loop reaches has at
most five buffered records and every delivered batch has exactly six; one
iteration flushes exactly when the appended event makes the count six,
delivers precisely those six records, and resets the buffer to empty. -/
theorem claim_C3_flush_policy :
    (∀ lines : List (List Char),
      (runLines initState lines).1.buffer.length ≤ 5 ∧
        ∀ b ∈ (runLines initState lines).1.delivered, b.length = 6) ∧
    (∀ (st st' : LoopState) (line : List Char), st.buffer.length ≤ 5 →
      processLine st line = .ok st' →
      st'.buffer.length ≤ 5 ∧
        (st'.delivered = st.delivered ∨
          (st.buffer.length = 5 ∧ ∃ ev,
            st'.delivered = st.delivered ++ [st.buffer ++ [ev]] ∧
            st'.buffer = []))) := by
  constructor
  · intro lines
    exact runLines_bound lines initState (by decide) (by intro b hb; cases hb)
  · intro st st' line hb h
    exact processLine_step hb h

/-- When a line raises, `runMain` ends with that exception. -/
theorem runMain_eq_of_some {lines : List (List Char)} {st : LoopState}
    {e : PyErr} (hr : runLines initState lines = (st, some e)) :
    runMain lines = (st, some e) := by
  unfold runMain
  rw [hr]

/-- When every line is processed, `runMain` ends with the `IndexError`
raised on the empty read at end of input. -/
theorem runMain_eq_of_none {lines : List (List Char)} {st : LoopState}
    (hr : runLines initState lines = (st, none)) :
    runMain lines = (st, some .indexError) := by
  unfold runMain
  rw [hr]
  rfl

/-- C4: on end of input the loop terminates (with the uncaught `IndexError`
raised on the empty read); the EOF step delivers nothing, so the events
still buffered below the flush threshold — at most five — are exactly the
extracted events missing from the delivered batches. -/
theorem claim_C4_no_final_flush (lines : List (List Char)) :
    (runMain lines).2.isSome = true ∧
    (runMain lines).1.delivered = (runLines initState lines).1.delivered ∧
    (runMain lines).1.delivered.flatten ++ (runMain lines).1.buffer =
      producedEvents lines ∧
    (runMain lines).1.buffer.length ≤ 5 := by
  have hdec := runLines_decomp lines initState
  have hbnd := runLines_bound lines initState (by decide)
    (by intro b hb; cases hb)
  cases hr : runLines initState lines with
  | mk st r =>
    rw [hr] at hdec hbnd
    simp only [initState, List.flatten_nil, List.nil_append] at hdec
    cases r with
    | some e =>
      rw [runMain_eq_of_some hr]
      exact ⟨rfl, rfl, hdec, hbnd.1⟩
    | none =>
      rw [runMain_eq_of_none hr]
      exact ⟨rfl, rfl, hdec, hbnd.1⟩

/-- C9: the concatenation of all delivered batches is a prefix of the
sequence of successfully extracted events in input-line order — flushing
never reorders events. -/
theorem claim_C9_order (lines : List (List Char)) :
    (runLines initState lines).1.delivered.flatten <+: producedEvents lines := by
  have hdec := runLines_decomp lines initState
  simp only [initState, List.flatten_nil, List.nil_append] at hdec
  exact ⟨(runLines initState lines).1.buffer, hdec⟩

/-- C1 (amended): a line whose processing raises is NOT caught by the loop:
the loop stops at that line with the buffered batch intact but undelivered,
and no subsequent line — however valid — is ever processed. -/
theorem claim_C1_amended {line : List Char} {e : PyErr} (st : LoopState)
    (rest : List (List Char)) (h : processLineCore line = .error e) :
    runLines st (line :: rest) = (st, some e) := by
  simp [runLines, processLine, h]

/-- C1 amended witness: the malformed kill line stops the loop at once. -/
theorem claim_C1_amended_witness :
    runLines initState (badKillLine :: [goodLeaveLine]) =
      (initState, some PyErr.valueError) :=
  claim_C1_amended initState _ (by rfl)

/-- C1 counterexample: the claim says a malformed payload fails only
locally and every subsequent valid line is still parsed and delivered.  In
the code there is no `try`/`except`: after the malformed kill line, six
valid lines that alone would produce a delivered batch produce nothing —
the loop has already died with an uncaught `ValueError`. -/
theorem claim_C1_counterexample :
    (runLines initState (badKillLine ::
      List.replicate 6 goodLeaveLine)).1.delivered = [] ∧
    (runLines initState (badKillLine ::
      List.replicate 6 goodLeaveLine)).2 = some PyErr.valueError ∧
    (runLines initState (List.replicate 6 goodLeaveLine)).1.delivered ≠ [] := by
  refine ⟨rfl, rfl, ?_⟩
  decide

/-- C3 witness: a buffer of five records plus one more event flushes
exactly six records and resets the buffer to empty. -/
theorem claim_C3_flush_policy_witness :
    c3After.buffer.length ≤ 5 ∧
      (c3After.delivered = c3Before.delivered ∨
        (c3Before.buffer.length = 5 ∧ ∃ ev,
          c3After.delivered = c3Before.delivered ++ [c3Before.buffer ++ [ev]] ∧
          c3After.buffer = [])) :=
  claim_C3_flush_policy.2 c3Before c3After goodLeaveLine
    (by decide) (by decide)

/-- C5 counterexample: the claim says a non-`game` line is skipped
*silently* — no diagnostic — and can never cause an extraction failure.
Processing the chat line from the spec's own end-to-end example emits the
`log_type not supported` diagnostic; and a chat line whose bracketed
timestamp is not hexadecimal raises an uncaught `ValueError`, because the
timestamp is extracted before the channel filter runs. -/
theorem claim_C5_counterexample :
    (processLine initState (str "[4e201234][chat]: hello world") =
      .ok { buffer := [], delivered := [],
            diags := [Diag.unsupportedChannel
              (str "[4e201234][chat]: hello world")] }) ∧
    processLine initState (str "[zz][chat]: hello world") =
      .error .valueError := ⟨rfl, rfl⟩

/-- C5 (amended): a line whose envelope decodes with a channel other than
`"game"` is skipped before event extraction — no event is produced, the
buffer and the delivered batches are unchanged, and the payload is never
parsed — but a diagnostic IS printed; moreover the timestamp and channel
are extracted before the filter, so the skip only applies to lines whose
bracket prefix decodes. -/
theorem claim_C5_channel_filter (st : LoopState) {line ch : List Char}
    {ts : Nat}
    (hts : _extract_timestamp (pyStrip line) = .ok ts)
    (hch : _extract_log_type (pyStrip line) = .ok ch)
    (hne : ch ≠ str "game") :
    processLine st line =
      .ok { st with
        diags := st.diags ++ [Diag.unsupportedChannel (pyStrip line)] } := by
  simp only [processLine, processLineCore]
  rw [hts, hch]
  simp [hne]

/-- C5 witness: a chat line whose payload would crash the kill extractor
is nevertheless skipped (with a diagnostic), because the filter runs before
extraction. -/
theorem claim_C5_channel_filter_witness :
    processLine initState (str "[4e201234][chat]: kill player=xyz") =
      .ok { initState with
        diags := initState.diags ++ [Diag.unsupportedChannel
          (pyStrip (str "[4e201234][chat]: kill player=xyz"))] } :=
  @claim_C5_channel_filter initState
    (str "[4e201234][chat]: kill player=xyz") (str "chat") 1310724660
    (by rfl) (by rfl) (by decide)

/-! ## Timestamp propagation (C6) -/

/-- Any record returned by `extract_leave_event` carries `ts * 1000`. -/
theorem extract_leave_event_timestamp {log : List Char} {ts : Nat}
    {r : LeaveRecord} (h : extract_leave_event log ts = .ok r) :
    r.timestamp = ts * 1000 := by
  unfold extract_leave_event at h
  repeat' split at h
  all_goals first
    | exact Except.noConfusion h
    | (simp only [Except.ok.injEq] at h; subst h; rfl)

/-- Any record returned by `extract_team_join_event` carries `ts * 1000`. -/
theorem extract_team_join_event_timestamp {log : List Char} {ts : Nat}
    {r : TeamJoinRecord} (h : extract_team_join_event log ts = .ok r) :
    r.timestamp = ts * 1000 := by
  unfold extract_team_join_event at h
  repeat' split at h
  all_goals first
    | exact Except.noConfusion h
    | (simp only [Except.ok.injEq] at h; subst h; rfl)

/-- Any record returned by `extract_velocity_event` carries `ts * 1000`. -/
theorem extract_velocity_event_timestamp {log : List Char} {ts : Nat}
    {r : VelocityRecord} (h : extract_velocity_event log ts = .ok r) :
    r.timestamp = ts * 1000 := by
  unfold extract_velocity_event at h
  repeat' split at h
  all_goals first
    | exact Except.noConfusion h
    | (simp only [Except.ok.injEq] at h; subst h; rfl)

/-- Any record returned by `extract_pickup_event` carries `ts * 1000`. -/
theorem extract_pickup_event_timestamp {log : List Char} {ts : Nat}
    {r : PickupRecord} (h : extract_pickup_event log ts = .ok r) :
    r.timestamp = ts * 1000 := by
  unfold extract_pickup_event at h
  repeat' split at h
  all_goals first
    | exact Except.noConfusion h
    | (simp only [Except.ok.injEq] at h; subst h; rfl)

/-- Any record returned by `extract_kill_event` carries `ts * 1000`. -/
theorem extract_kill_event_timestamp {log : List Char} {ts : Nat}
    {r : KillRecord} (h : extract_kill_event log ts = .ok r) :
    r.timestamp = ts * 1000 := by
  unfold extract_kill_event at h
  repeat' split at h
  all_goals first
    | exact Except.noConfusion h
    | (simp only [Except.ok.injEq] at h; subst h; rfl)

/-- Any event produced through the dispatch table carries `ts * 1000`. -/
theorem type_to_extractor_timestamp {t : List Char}
    {f : List Char → Nat → Except PyErr Event}
    (hf : type_to_extractor t = some f) {log : List Char} {ts : Nat}
    {ev : Event} (h : f log ts = .ok ev) : ev.timestamp = ts * 1000 := by
  unfold type_to_extractor at hf
  split_ifs at hf
  all_goals cases hf
  case _ =>
    cases hex : extract_pickup_event log ts with
    | error e =>
      simp only [hex, Except.map] at h
      exact Except.noConfusion h
    | ok r =>
      simp only [hex, Except.map, Except.ok.injEq] at h
      subst h
      exact extract_pickup_event_timestamp hex
  case _ =>
    cases hex : extract_kill_event log ts with
    | error e =>
      simp only [hex, Except.map] at h
      exact Except.noConfusion h
    | ok r =>
      simp only [hex, Except.map, Except.ok.injEq] at h
      subst h
      exact extract_kill_event_timestamp hex
  case _ =>
    cases hex : extract_team_join_event log ts with
    | error e =>
      simp only [hex, Except.map] at h
      exact Except.noConfusion h
    | ok r =>
      simp only [hex, Except.map, Except.ok.injEq] at h
      subst h
      exact extract_team_join_event_timestamp hex
  case _ =>
    cases hex : extract_leave_event log ts with
    | error e =>
      simp only [hex, Except.map] at h
      exact Except.noConfusion h
    | ok r =>
      simp only [hex, Except.map, Except.ok.injEq] at h
      subst h
      exact extract_leave_event_timestamp hex
  case _ =>
    cases hex : extract_velocity_event log ts with
    | error e =>
      simp only [hex, Except.map] at h
      exact Except.noConfusion h
    | ok r =>
      simp only [hex, Except.map, Except.ok.injEq] at h
      subst h
      exact extract_velocity_event_timestamp hex

/-- C6: (1) on a well-formed line, the extracted timestamp is the base-16
value of the substring between the first `'['` and the `']'` that follows
it; (2) every event record the pipeline produces — all five variants —
carries that value multiplied by 1000 in its timestamp field. -/
theorem claim_C6_timestamp :
    (∀ (a hx b : List Char), (∀ c ∈ a, c ≠ '[') → (∀ c ∈ hx, c ≠ '[') →
      (∀ c ∈ hx, c ≠ ']') → hx ≠ [] → (∀ c ∈ hx, isHexDigit c = true) →
      _extract_timestamp (a ++ (str "[" ++ (hx ++ (str "]" ++ b)))) =
        .ok (hexVal hx)) ∧
    (∀ (line : List Char) (ev : Event),
      processLineCore line = .ok (.event ev) →
      ∃ ts, _extract_timestamp (pyStrip line) = .ok ts ∧
        ev.timestamp = ts * 1000) := by
  constructor
  · intro a hx b ha hx1 hx2 hxne hxhex
    have h1 : splitOnce (str "[") (a ++ (str "[" ++ (hx ++ (str "]" ++ b)))) =
        some (a, hx ++ (str "]" ++ b)) := by
      have := splitOnce_first_sep (str "[") (m := a)
        (t := hx ++ (str "]" ++ b)) (NoOccPre.of_headfree_head rfl ha)
      simpa [List.append_assoc] using this
    have h2 : splitOnce (str "]") (hx ++ (str "]" ++ b)) = some (hx, b) := by
      have := splitOnce_first_sep (str "]") (m := hx) (t := b)
        (NoOccPre.of_headfree_head rfl hx2)
      simpa [List.append_assoc] using this
    have hxe : hx.isEmpty = false := by
      cases hx with
      | nil => exact absurd rfl hxne
      | cons _ _ => rfl
    have hxall : hx.all isHexDigit = true := List.all_eq_true.mpr hxhex
    unfold _extract_timestamp pyBefore
    rw [h1]
    simp only [h2]
    simp [parseHex, hxe, hxall]
  · intro line ev h
    simp only [processLineCore] at h
    cases hts : _extract_timestamp (pyStrip line) with
    | error e =>
      simp only [hts] at h
      exact Except.noConfusion h
    | ok ts =>
      simp only [hts] at h
      refine ⟨ts, rfl, ?_⟩
      cases hch : _extract_log_type (pyStrip line) with
      | error e =>
        simp only [hch] at h
        exact Except.noConfusion h
      | ok ch =>
        simp only [hch] at h
        by_cases hne : ch ≠ str "game"
        · rw [if_pos hne] at h
          simp only [Except.ok.injEq] at h
          exact LineOutcome.noConfusion h
        · rw [if_neg hne] at h
          cases hsp : splitOnce (str ": ") (pyStrip line) with
          | none =>
            simp only [hsp] at h
            exact Except.noConfusion h
          | some pr =>
            obtain ⟨pre, log⟩ := pr
            simp only [hsp] at h
            cases hdisp : type_to_extractor (_extract_event_type log) with
            | none =>
              simp only [hdisp, Except.ok.injEq] at h
              exact LineOutcome.noConfusion h
            | some f =>
              simp only [hdisp] at h
              cases hex : f log ts with
              | error e =>
                simp only [hex] at h
                exact Except.noConfusion h
              | ok ev2 =>
                simp only [hex, Except.ok.injEq, LineOutcome.event.injEq] at h
                subst h
                exact type_to_extractor_timestamp hdisp hex

/-- C6 witness: the spec's end-to-end kill line has timestamp
`0x4e201234 * 1000`; part 1 applied to its bracket prefix and part 2
applied to the produced event agree. -/
theorem claim_C6_timestamp_witness :
    _extract_timestamp ([] ++ (str "[" ++ (str "4e201234" ++ (str "]" ++
      str "[game]: leave player='0:a'")))) = .ok (hexVal (str "4e201234")) ∧
    ∃ ts, _extract_timestamp (pyStrip
      (str "[4e201234][game]: leave player='0:a'")) = .ok ts ∧
      c6Ev.timestamp = ts * 1000 :=
  ⟨claim_C6_timestamp.1 [] (str "4e201234")
      (str "[game]: leave player='0:a'")
      (by decide) (by decide) (by decide) (by decide) (by decide),
    claim_C6_timestamp.2 (str "[4e201234][game]: leave player='0:a'")
      c6Ev (by rfl)⟩

end LogToEs
